import Mathlib

/-!
The program `helper.c`: joining a container's namespaces, switching root, exec

A shallow embedding of `src/helper.c` (functions `enter_namespace` and `main`)
and proofs about the sequence of operations it performs.

The program is sequential C code whose only observable behaviour is the
sequence of library and system calls it makes.  It is embedded as a state
transformer over a chronological trace of events.  The result of every system
call is supplied by an `Oracle`, which may depend on everything that happened
before (the trace so far) and on the call itself.

Conventions of the embedding:

* C strings are Lean strings, one `Char` per C `char`; `argv` is a list of
  strings and `argc` its length.
* `pid_t` and `int` are `Int`; `atoi` yields a 32-bit value (as in glibc, where
  it is `(int) strtol(s, NULL, 10)`).
* A function that calls `exit`, or a successful `execvp`, halts the whole
  program: nothing after it runs.
* A `close` call releases its descriptor whatever it returns; the program
  does not look at the result.
-/

namespace Helper

/-! ## Data model -/

/-- The system calls made by `helper.c`, with their arguments. -/
inductive Call
  | open (pathname : String) (flags : Int)
  | setns (fd : Int) (nstype : Int)
  | close (fd : Int)
  | stat (pathname : String)
  | chdir (path : String)
  | chroot (path : String)
  | execvp (file : String) (argv : List String)
  deriving DecidableEq, Repr

/-- One observable step of a run.  `sys c ret` is the system call `c` together
with the value it returned (`-1` on failure; the descriptor for a successful
`open`; `0` for any other success; a successful `execvp` does not return and is
recorded with `0`).  `perror s` and `fprintf_stderr text` are the two ways the
program writes to the error channel, `exit status` is the call of `exit`. -/
inductive Event
  | sys (c : Call) (ret : Int)
  | perror (s : String)
  | fprintf_stderr (text : String)
  | exit (status : Int)
  deriving DecidableEq, Repr

/-- The environment: for the trace so far and the call being made, whether the
call succeeds, and which descriptor a successful `open` returns. -/
structure Oracle where
  succeeds : List Event → Call → Bool
  fd : List Event → Nat

/-- How a process stops being this program: `exit(status)`, or replacement of
the process image by a successful `execvp`. -/
inductive Halt
  | exited (status : Int)
  | replaced
  deriving DecidableEq, Repr

/-- Result of running a piece of code: it returned `a` to its caller, or the
process halted inside it.  Both carry the trace up to that point. -/
inductive Res (α : Type)
  | ret (a : α) (trace : List Event)
  | halt (h : Halt) (trace : List Event)
  deriving DecidableEq, Repr

/-- The trace carried by a result. -/
def Res.trace {α : Type} : Res α → List Event
  | .ret _ t => t
  | .halt _ t => t

/-- Code: a function from the trace so far to a result. -/
def Proc (α : Type) : Type := List Event → Res α

/-- Returning a value without doing anything. -/
def Proc.pure {α : Type} (a : α) : Proc α := fun t => .ret a t

/-- Sequencing: a halt in the first part skips the rest. -/
def Proc.bind {α β : Type} (m : Proc α) (f : α → Proc β) : Proc β := fun t =>
  match m t with
  | .ret a t1 => f a t1
  | .halt h t1 => .halt h t1

instance : Monad Proc where
  pure := Proc.pure
  bind := Proc.bind

/-! ## Library and system calls -/

/-- `EXIT_FAILURE` of `<stdlib.h>`. -/
def EXIT_FAILURE : Int := 1

/-- `O_RDONLY` of `<fcntl.h>`. -/
def O_RDONLY : Int := 0

/-- The value a system call returns: `-1` when it fails, the descriptor chosen
by the environment for a successful `open`, and `0` otherwise. -/
def retval (o : Oracle) (t : List Event) (c : Call) : Int :=
  if o.succeeds t c then
    match c with
    | .open _ _ => (o.fd t : Int)
    | _ => 0
  else -1

/-- Make a system call that returns to the caller: its result is recorded in
the trace and handed back. -/
def syscall (o : Oracle) (c : Call) : Proc Int := fun t =>
  .ret (retval o t c) (t ++ [.sys c (retval o t c)])

/-- The call `execvp(file, argv)`: on success the process image is replaced
and nothing of this program runs any more; on failure it returns `-1`. -/
def execvp (o : Oracle) (file : String) (argv : List String) : Proc Int := fun t =>
  if o.succeeds t (.execvp file argv) then
    .halt .replaced (t ++ [.sys (.execvp file argv) 0])
  else
    .ret (-1) (t ++ [.sys (.execvp file argv) (-1)])

/-- The call `perror(s)`: one diagnostic line on the error channel. -/
def perror (s : String) : Proc Unit := fun t => .ret () (t ++ [.perror s])

/-- The call `fprintf(stderr, ...)` with the formatted text. -/
def fprintf_stderr (text : String) : Proc Unit := fun t =>
  .ret () (t ++ [.fprintf_stderr text])

/-- The call `exit(status)`: never returns. -/
def exit {α : Type} (status : Int) : Proc α := fun t =>
  .halt (.exited status) (t ++ [.exit status])

/-- The conversion `%d` of `printf` for an `int`. -/
def fmt_d (n : Int) : String :=
  if n < 0 then "-" ++ Nat.repr n.natAbs else Nat.repr n.toNat

/-- The call `snprintf(buf, size, ...)` seen as a function of the fully
formatted text: at most `size - 1` characters are stored in the buffer. -/
def snprintf (size : Nat) (formatted : String) : String :=
  ⟨formatted.data.take (size - 1)⟩

/-- The predicate `isspace` of `<ctype.h>` in the C locale. -/
def isspace (c : Char) : Bool :=
  c.toNat = 32 || (9 ≤ c.toNat && c.toNat ≤ 13)

/-- Value of the leading decimal digits of a character list, given the value
`acc` of the digits already read. -/
def digitsValue : List Char → Nat → Nat
  | [], acc => acc
  | c :: cs, acc =>
    if c.isDigit then digitsValue cs (10 * acc + (c.toNat - 48)) else acc

/-- The function `strtol(s, NULL, 10)` on a 64-bit `long`: leading white space,
an optional sign, decimal digits; results out of range are clamped. -/
def strtol (s : String) : Int :=
  let body := s.data.dropWhile isspace
  let v : Int :=
    match body with
    | '-' :: cs => - (digitsValue cs 0 : Int)
    | '+' :: cs => (digitsValue cs 0 : Int)
    | cs => (digitsValue cs 0 : Int)
  max (-(2 : Int) ^ 63) (min v ((2 : Int) ^ 63 - 1))

/-- The function `atoi(s)`, that is `(int) strtol(s, NULL, 10)`: the `long` is
reduced to a 32-bit two's complement `int`. -/
def atoi (s : String) : Int :=
  (strtol s + 2 ^ 31) % 2 ^ 32 - 2 ^ 31

/-! ## The program -/

/-- The text `"/proc/%d/ns/%s"` formatted with `target_pid` and `ns_type`. -/
def ns_path_text (target_pid : Int) (ns_type : String) : String :=
  "/proc/" ++ fmt_d target_pid ++ "/ns/" ++ ns_type

/-- The function `enter_namespace` of `helper.c`. -/
def enter_namespace (o : Oracle) (target_pid : Int) (ns_type : String) : Proc Unit := do
  let ns_path := snprintf 256 (ns_path_text target_pid ns_type)
  let fd ← syscall o (.open ns_path O_RDONLY)
  if fd == -1 then
    perror "open namespace"
    exit EXIT_FAILURE
  if (← syscall o (.setns fd 0)) == -1 then
    perror "setns"
    let _ ← syscall o (.close fd)
    exit EXIT_FAILURE
  let _ ← syscall o (.close fd)

/-- The array `namespaces` of `main`. -/
def namespaces : List String := ["pid", "uts", "mnt", "net"]

/-- The function `main` of `helper.c`; `argc` is the length of `argv`.  The
loop `for (int i = 0; i < 4; i++)` runs its body for `i = 0, 1, 2, 3` in turn.
The final `return 0` is what C gives a `main` whose closing brace is reached. -/
def main (o : Oracle) (argv : List String) : Proc Int := do
  if argv.length < 4 then
    fprintf_stderr ("Usage: " ++ argv.getD 0 "(null)" ++ " <PID> <rootfs> <command> [args...]\n")
    exit EXIT_FAILURE
  let target_pid := atoi (argv.getD 1 "")
  let rootfs := argv.getD 2 ""
  (List.range 4).forM fun i => enter_namespace o target_pid (namespaces.getD i "")
  if (← syscall o (.stat rootfs)) == -1 then
    perror "stat rootfs"
    exit EXIT_FAILURE
  if (← syscall o (.chdir rootfs)) != 0 then
    perror "chdir to rootfs"
    exit EXIT_FAILURE
  if (← syscall o (.chroot ".")) != 0 then
    perror "chroot"
    exit EXIT_FAILURE
  if (← syscall o (.chdir "/")) != 0 then
    perror "chdir to /"
    exit EXIT_FAILURE
  let _ ← execvp o (argv.getD 3 "") (argv.drop 3)
  perror "execvp"
  exit EXIT_FAILURE
  return 0

/-- A run of the program from the empty trace. -/
def run (o : Oracle) (argv : List String) : Res Int := main o argv []

/-! ## Observations on traces -/

/-- The system calls of a trace, in order. -/
def syscalls : List Event → List Call
  | [] => []
  | .sys c _ :: t => c :: syscalls t
  | _ :: t => syscalls t

/-- The paths of the `open` calls of a trace, in order. -/
def openCalls : List Event → List String
  | [] => []
  | .sys (.open p _) _ :: t => p :: openCalls t
  | _ :: t => openCalls t

/-- The paths of the `open` calls of a trace that returned a descriptor. -/
def openedPaths : List Event → List String
  | [] => []
  | .sys (.open p _) r :: t => if r = -1 then openedPaths t else p :: openedPaths t
  | _ :: t => openedPaths t

/-- The paths of the joins of a trace that succeeded: an `open` directly
followed by a `setns` that did not fail. -/
def joinedPaths : List Event → List String
  | [] => []
  | .sys (.open p _) _ :: .sys (.setns _ _) r :: t =>
    if r = -1 then joinedPaths t else p :: joinedPaths t
  | _ :: t => joinedPaths t

/-- The descriptors on which a trace calls `close`, in order. -/
def closeCalls : List Event → List Int
  | [] => []
  | .sys (.close fd) _ :: t => fd :: closeCalls t
  | _ :: t => closeCalls t

/-- What a trace writes to the error channel, in order. -/
def diagnostics : List Event → List Event
  | [] => []
  | .perror s :: t => .perror s :: diagnostics t
  | .fprintf_stderr s :: t => .fprintf_stderr s :: diagnostics t
  | _ :: t => diagnostics t

/-- The descriptors opened and not yet closed at the end of a trace, given
those open at its start: a successful `open` adds its descriptor, a `close`
releases the one it is called on. -/
def openHandles : List Int → List Event → List Int
  | hs, [] => hs
  | hs, .sys (.open _ _) r :: t => if r = -1 then openHandles hs t else openHandles (r :: hs) t
  | hs, .sys (.close fd) _ :: t => openHandles (hs.erase fd) t
  | hs, _ :: t => openHandles hs t

/-! ## Example environments and arguments -/

/-- An environment in which every system call succeeds, except the one made
after exactly `n` earlier system calls; `open` returns descriptor 3. -/
def failAt (n : Nat) : Oracle :=
  ⟨fun t _ => decide ((syscalls t).length ≠ n), fun _ => 3⟩

/-- An environment in which every system call succeeds; `open` returns 3. -/
def okOracle : Oracle := ⟨fun _ _ => true, fun _ => 3⟩

/-- An argument vector: pid 42, rootfs `/rootfs`, command `/bin/sh -c ls`. -/
def exampleArgv : List String := ["helper", "42", "/rootfs", "/bin/sh", "-c", "ls"]

/-! ## The shapes of runs -/

/-- The three events of a successful join of the namespace at `path`. -/
def joinOk (path : String) (fd : Nat) (r : Int) : List Event :=
  [.sys (.open path O_RDONLY) fd, .sys (.setns fd 0) 0, .sys (.close fd) r]

/-- The events of a join whose `open` fails. -/
def joinOpenFail (path : String) : List Event :=
  [.sys (.open path O_RDONLY) (-1), .perror "open namespace", .exit EXIT_FAILURE]

/-- The events of a join whose `setns` fails. -/
def joinSetnsFail (path : String) (fd : Nat) (r : Int) : List Event :=
  [.sys (.open path O_RDONLY) fd, .sys (.setns fd 0) (-1), .perror "setns",
    .sys (.close fd) r, .exit EXIT_FAILURE]

/-- The events of a root switch in which all four calls succeed. -/
def rootOk (rootfs : String) : List Event :=
  [.sys (.stat rootfs) 0, .sys (.chdir rootfs) 0, .sys (.chroot ".") 0, .sys (.chdir "/") 0]

/-- The events of four successful joins for the paths `p1 .. p4`. -/
def joinsOk (p1 p2 p3 p4 : String) (fd1 : Nat) (r1 : Int) (fd2 : Nat) (r2 : Int)
    (fd3 : Nat) (r3 : Int) (fd4 : Nat) (r4 : Int) : List Event :=
  joinOk p1 fd1 r1 ++ joinOk p2 fd2 r2 ++ joinOk p3 fd3 r3 ++ joinOk p4 fd4 r4

/-- All the runs `main` can make with at least four arguments, for given
descriptors `fd1 .. fd4` and results `r1 .. r4` of `close`: one run per point
of failure, and the run in which `execvp` succeeds. -/
def runs (p1 p2 p3 p4 rootfs file : String) (args : List String)
    (fd1 : Nat) (r1 : Int) (fd2 : Nat) (r2 : Int)
    (fd3 : Nat) (r3 : Int) (fd4 : Nat) (r4 : Int) : List (Res Int) :=
  [ .halt (.exited EXIT_FAILURE) (joinOpenFail p1),
    .halt (.exited EXIT_FAILURE) (joinSetnsFail p1 fd1 r1),
    .halt (.exited EXIT_FAILURE) (joinOk p1 fd1 r1 ++ joinOpenFail p2),
    .halt (.exited EXIT_FAILURE) (joinOk p1 fd1 r1 ++ joinSetnsFail p2 fd2 r2),
    .halt (.exited EXIT_FAILURE) (joinOk p1 fd1 r1 ++ joinOk p2 fd2 r2 ++ joinOpenFail p3),
    .halt (.exited EXIT_FAILURE)
      (joinOk p1 fd1 r1 ++ joinOk p2 fd2 r2 ++ joinSetnsFail p3 fd3 r3),
    .halt (.exited EXIT_FAILURE)
      (joinOk p1 fd1 r1 ++ joinOk p2 fd2 r2 ++ joinOk p3 fd3 r3 ++ joinOpenFail p4),
    .halt (.exited EXIT_FAILURE)
      (joinOk p1 fd1 r1 ++ joinOk p2 fd2 r2 ++ joinOk p3 fd3 r3 ++ joinSetnsFail p4 fd4 r4),
    .halt (.exited EXIT_FAILURE)
      (joinsOk p1 p2 p3 p4 fd1 r1 fd2 r2 fd3 r3 fd4 r4 ++
        [.sys (.stat rootfs) (-1), .perror "stat rootfs", .exit EXIT_FAILURE]),
    .halt (.exited EXIT_FAILURE)
      (joinsOk p1 p2 p3 p4 fd1 r1 fd2 r2 fd3 r3 fd4 r4 ++
        [.sys (.stat rootfs) 0, .sys (.chdir rootfs) (-1), .perror "chdir to rootfs",
          .exit EXIT_FAILURE]),
    .halt (.exited EXIT_FAILURE)
      (joinsOk p1 p2 p3 p4 fd1 r1 fd2 r2 fd3 r3 fd4 r4 ++
        [.sys (.stat rootfs) 0, .sys (.chdir rootfs) 0, .sys (.chroot ".") (-1),
          .perror "chroot", .exit EXIT_FAILURE]),
    .halt (.exited EXIT_FAILURE)
      (joinsOk p1 p2 p3 p4 fd1 r1 fd2 r2 fd3 r3 fd4 r4 ++
        [.sys (.stat rootfs) 0, .sys (.chdir rootfs) 0, .sys (.chroot ".") 0,
          .sys (.chdir "/") (-1), .perror "chdir to /", .exit EXIT_FAILURE]),
    .halt (.exited EXIT_FAILURE)
      (joinsOk p1 p2 p3 p4 fd1 r1 fd2 r2 fd3 r3 fd4 r4 ++ rootOk rootfs ++
        [.sys (.execvp file args) (-1), .perror "execvp", .exit EXIT_FAILURE]),
    .halt .replaced
      (joinsOk p1 p2 p3 p4 fd1 r1 fd2 r2 fd3 r3 fd4 r4 ++ rootOk rootfs ++
        [.sys (.execvp file args) 0]) ]

/-- The sixteen events before `execvp` in a run in which every call
succeeds, for given paths and descriptors. -/
def successPrefix (p1 p2 p3 p4 rootfs : String) (fd1 fd2 fd3 fd4 : Nat) : List Event :=
  [.sys (.open p1 O_RDONLY) fd1, .sys (.setns fd1 0) 0, .sys (.close fd1) 0,
    .sys (.open p2 O_RDONLY) fd2, .sys (.setns fd2 0) 0, .sys (.close fd2) 0,
    .sys (.open p3 O_RDONLY) fd3, .sys (.setns fd3 0) 0, .sys (.close fd3) 0,
    .sys (.open p4 O_RDONLY) fd4, .sys (.setns fd4 0) 0, .sys (.close fd4) 0,
    .sys (.stat rootfs) 0, .sys (.chdir rootfs) 0, .sys (.chroot ".") 0,
    .sys (.chdir "/") 0]

/-! ## Points of failure -/

/-- The seven points at which the program checks for failure. -/
inductive Step
  | OpenFailed
  | AttachFailed
  | StatFailed
  | ChdirFailed
  | RootReanchorFailed
  | ChdirRootFailed
  | ExecFailed
  deriving DecidableEq, Repr

/-- The text the program passes to `perror` at each point of failure. -/
def Step.name : Step → String
  | .OpenFailed => "open namespace"
  | .AttachFailed => "setns"
  | .StatFailed => "stat rootfs"
  | .ChdirFailed => "chdir to rootfs"
  | .RootReanchorFailed => "chroot"
  | .ChdirRootFailed => "chdir to /"
  | .ExecFailed => "execvp"

/-- Whether `chroot` has been called in a trace. -/
def calledChroot (t : List Event) : Bool :=
  (syscalls t).any fun c => match c with
    | .chroot _ => true
    | _ => false

/-- The point of failure a failing call belongs to, given the trace before it:
the two `chdir` calls are told apart by whether `chroot` has been called.  The
result of `close` is never checked. -/
def stepOf (pre : List Event) : Call → Option Step
  | .open _ _ => some .OpenFailed
  | .setns _ _ => some .AttachFailed
  | .close _ => none
  | .stat _ => some .StatFailed
  | .chdir _ => if calledChroot pre then some .ChdirRootFailed else some .ChdirFailed
  | .chroot _ => some .RootReanchorFailed
  | .execvp _ _ => some .ExecFailed

/-! ## Invariants and proof devices -/

/-- A trace is faithful to the oracle when every system call recorded in it
carries the value the oracle gave for that call after the events before it. -/
def Faithful (o : Oracle) (t : List Event) : Prop :=
  ∀ pre e post, t = pre ++ e :: post → ∀ c r, e = .sys c r → r = retval o pre c

/-- Code keeps traces faithful. -/
def Keeps {α : Type} (o : Oracle) (m : Proc α) : Prop :=
  ∀ t, Faithful o t → Faithful o (m t).trace

/-- `AllSplits P done l`: `P` holds at every position of `l`, for the events
before it (after `done`), the event there, and the events after it. -/
def AllSplits {α : Type} (P : List α → α → List α → Prop) : List α → List α → Prop
  | _, [] => True
  | done, e :: rest => P done e rest ∧ AllSplits P (done ++ [e]) rest

/-! ## Basic facts -/

theorem retval_open (o : Oracle) (t : List Event) (p : String) (f : Int) :
    retval o t (.open p f) = -1 ∨ ∃ n : Nat, retval o t (.open p f) = n := by
  unfold retval
  by_cases h : o.succeeds t (.open p f) = true
  · right; exact ⟨o.fd t, by simp [h]⟩
  · left; simp [h]

/-- A call other than `open` returns `-1` or `0`. -/
theorem retval_other (o : Oracle) (t : List Event) (c : Call)
    (hc : ∀ p f, c ≠ .open p f) :
    retval o t c = -1 ∨ retval o t c = 0 := by
  unfold retval
  by_cases h : o.succeeds t c = true
  · right
    cases c <;> simp_all
  · left; simp [h]

/-- The three ways a call of `enter_namespace` can go. -/
theorem enter_namespace_cases (o : Oracle) (target_pid : Int) (ns_type : String)
    (t : List Event) :
    ∃ (fd : Nat) (r : Int),
      enter_namespace o target_pid ns_type t =
          .ret () (t ++ joinOk (snprintf 256 (ns_path_text target_pid ns_type)) fd r) ∨
      enter_namespace o target_pid ns_type t =
          .halt (.exited EXIT_FAILURE)
            (t ++ joinOpenFail (snprintf 256 (ns_path_text target_pid ns_type))) ∨
      enter_namespace o target_pid ns_type t =
          .halt (.exited EXIT_FAILURE)
            (t ++ joinSetnsFail (snprintf 256 (ns_path_text target_pid ns_type)) fd r) := by
  generalize hp : snprintf 256 (ns_path_text target_pid ns_type) = p
  rcases retval_open o t p O_RDONLY with h1 | ⟨fd, h1⟩
  · refine ⟨0, 0, Or.inr (Or.inl ?_)⟩
    simp [enter_namespace, hp, bind, Proc.bind, pure, Proc.pure, syscall, h1, perror, exit, joinOpenFail]
  · rcases retval_other o (t ++ [.sys (.open p O_RDONLY) fd]) (.setns fd 0) (by simp)
      with h2 | h2
    · refine ⟨fd, retval o (t ++ [.sys (.open p O_RDONLY) fd, .sys (.setns fd 0) (-1),
        .perror "setns"]) (.close fd), Or.inr (Or.inr ?_)⟩
      simp [enter_namespace, hp, bind, Proc.bind, pure, Proc.pure, syscall, h1, h2, perror, exit, joinSetnsFail]
    · refine ⟨fd, retval o (t ++ [.sys (.open p O_RDONLY) fd, .sys (.setns fd 0) 0])
        (.close fd), Or.inl ?_⟩
      simp [enter_namespace, hp, bind, Proc.bind, pure, Proc.pure, syscall, h1, h2, perror, exit, joinOk]

/-! ## Paths and the buffer -/

/-- The result of `atoi` is a 32-bit `int`. -/
theorem atoi_range (s : String) : -(2 : Int) ^ 31 ≤ atoi s ∧ atoi s < 2 ^ 31 := by
  unfold atoi
  constructor <;> omega

/-- The decimal text of a 32-bit `int` has at most 11 characters. -/
theorem fmt_d_length (n : Int) (h1 : -(2 : Int) ^ 31 ≤ n) (h2 : n < 2 ^ 31) :
    (fmt_d n).length ≤ 11 := by
  unfold fmt_d
  split
  · have h : (Nat.repr n.natAbs).length ≤ 10 :=
      Nat.repr_length n.natAbs 10 (by decide) (by omega)
    rw [String.length_append]
    have : "-".length = 1 := by decide
    omega
  · have h : (Nat.repr n.toNat).length ≤ 10 :=
      Nat.repr_length n.toNat 10 (by decide) (by omega)
    omega

/-- Length of the formatted namespace path. -/
theorem ns_path_text_length (target_pid : Int) (ns_type : String) :
    (ns_path_text target_pid ns_type).length = 10 + (fmt_d target_pid).length + ns_type.length := by
  unfold ns_path_text
  simp only [String.length_append]
  have h1 : "/proc/".length = 6 := by decide
  have h2 : "/ns/".length = 4 := by decide
  omega

/-- A text shorter than the buffer is stored whole. -/
theorem snprintf_of_lt (size : Nat) (s : String) (h : s.length < size) :
    snprintf size s = s := by
  cases s with
  | mk cs =>
    have h1 : cs.length ≤ size - 1 := Nat.le_sub_one_of_lt h
    show String.mk (cs.take (size - 1)) = String.mk cs
    rw [List.take_of_length_le h1]

/-- For a 32-bit pid and one of the four kinds the path is not truncated. -/
theorem snprintf_ns_path (target_pid : Int) (ns_type : String)
    (h1 : -(2 : Int) ^ 31 ≤ target_pid) (h2 : target_pid < 2 ^ 31)
    (hk : ns_type ∈ namespaces) :
    snprintf 256 (ns_path_text target_pid ns_type) = ns_path_text target_pid ns_type := by
  apply snprintf_of_lt
  rw [ns_path_text_length]
  have := fmt_d_length target_pid h1 h2
  have hl : ns_type.length = 3 := by
    simp only [namespaces, List.mem_cons, List.mem_singleton, List.not_mem_nil, or_false] at hk
    rcases hk with rfl | rfl | rfl | rfl <;> decide
  omega

/-! ## Case analysis of runs -/

/-- The loop of `main` is four calls of `enter_namespace`, in the order of the
array. -/
theorem enter_loop_eq (o : Oracle) (target_pid : Int) :
    ((List.range 4).forM fun i => enter_namespace o target_pid (namespaces.getD i "")) =
      (enter_namespace o target_pid "pid").bind fun _ =>
      (enter_namespace o target_pid "uts").bind fun _ =>
      (enter_namespace o target_pid "mnt").bind fun _ =>
      (enter_namespace o target_pid "net").bind fun _ => Proc.pure () := rfl

/-- A halt inside the loop is the end of the run. -/
theorem run_of_loop_halt (o : Oracle) (argv : List String) (h : 4 ≤ argv.length)
    (hh : Halt) (t : List Event)
    (hl : ((List.range 4).forM fun i =>
      enter_namespace o (atoi (argv.getD 1 "")) (namespaces.getD i "")) [] = .halt hh t) :
    run o argv = .halt hh t := by
  have hlen : ¬ argv.length < 4 := by omega
  unfold run main
  simp only [hlen, if_false, bind, Proc.bind, pure, Proc.pure, hl]

/-- What follows the loop in `main`. -/
theorem run_of_loop_ret (o : Oracle) (argv : List String) (h : 4 ≤ argv.length)
    (t : List Event)
    (hl : ((List.range 4).forM fun i =>
      enter_namespace o (atoi (argv.getD 1 "")) (namespaces.getD i "")) [] = .ret () t) :
    run o argv ∈
    ([ .halt (.exited EXIT_FAILURE)
        (t ++ [.sys (.stat (argv.getD 2 "")) (-1), .perror "stat rootfs", .exit EXIT_FAILURE]),
      .halt (.exited EXIT_FAILURE)
        (t ++ [.sys (.stat (argv.getD 2 "")) 0, .sys (.chdir (argv.getD 2 "")) (-1),
          .perror "chdir to rootfs", .exit EXIT_FAILURE]),
      .halt (.exited EXIT_FAILURE)
        (t ++ [.sys (.stat (argv.getD 2 "")) 0, .sys (.chdir (argv.getD 2 "")) 0,
          .sys (.chroot ".") (-1), .perror "chroot", .exit EXIT_FAILURE]),
      .halt (.exited EXIT_FAILURE)
        (t ++ [.sys (.stat (argv.getD 2 "")) 0, .sys (.chdir (argv.getD 2 "")) 0,
          .sys (.chroot ".") 0, .sys (.chdir "/") (-1), .perror "chdir to /",
          .exit EXIT_FAILURE]),
      .halt (.exited EXIT_FAILURE)
        (t ++ rootOk (argv.getD 2 "") ++
          [.sys (.execvp (argv.getD 3 "") (argv.drop 3)) (-1), .perror "execvp",
            .exit EXIT_FAILURE]),
      .halt .replaced
        (t ++ rootOk (argv.getD 2 "") ++
          [.sys (.execvp (argv.getD 3 "") (argv.drop 3)) 0]) ] : List (Res Int)) := by
  have hlen : ¬ argv.length < 4 := by omega
  unfold run main
  simp only [hlen, if_false, bind, Proc.bind, pure, Proc.pure, hl]
  generalize argv.getD 2 "" = rootfs
  generalize argv.getD 3 "" = file
  generalize argv.drop 3 = args
  rcases retval_other o t (.stat rootfs) (by simp) with h1 | h1
  · simp [Proc.bind, Proc.pure, syscall, perror, exit, h1]
  rcases retval_other o (t ++ [.sys (.stat rootfs) 0]) (.chdir rootfs) (by simp) with h2 | h2
  · simp [Proc.bind, Proc.pure, syscall, perror, exit, h1, h2]
  rcases retval_other o (t ++ [.sys (.stat rootfs) 0, .sys (.chdir rootfs) 0])
    (.chroot ".") (by simp) with h3 | h3
  · simp [Proc.bind, Proc.pure, syscall, perror, exit, h1, h2, h3]
  rcases retval_other o
    (t ++ [.sys (.stat rootfs) 0, .sys (.chdir rootfs) 0, .sys (.chroot ".") 0])
    (.chdir "/") (by simp) with h4 | h4
  · simp [Proc.bind, Proc.pure, syscall, perror, exit, h1, h2, h3, h4]
  by_cases h5 : o.succeeds (t ++ rootOk rootfs) (.execvp file args) = true
  · simp [rootOk] at h5
    simp [Proc.bind, Proc.pure, syscall, perror, exit, execvp, rootOk, h1, h2, h3, h4, h5]
  · simp [rootOk] at h5
    simp [Proc.bind, Proc.pure, syscall, perror, exit, execvp, rootOk, h1, h2, h3, h4, h5]

/-- The three ways a call of `enter_namespace` can go, for a 32-bit pid and one
of the four kinds: the path is the whole formatted text. -/
theorem enter_namespace_cases32 (o : Oracle) (pid : Int) (k : String)
    (hlo : -(2 : Int) ^ 31 ≤ pid) (hhi : pid < 2 ^ 31) (hk : k ∈ namespaces)
    (t : List Event) :
    ∃ (fd : Nat) (r : Int),
      enter_namespace o pid k t = .ret () (t ++ joinOk (ns_path_text pid k) fd r) ∨
      enter_namespace o pid k t =
        .halt (.exited EXIT_FAILURE) (t ++ joinOpenFail (ns_path_text pid k)) ∨
      enter_namespace o pid k t =
        .halt (.exited EXIT_FAILURE) (t ++ joinSetnsFail (ns_path_text pid k) fd r) := by
  have h := enter_namespace_cases o pid k t
  rw [snprintf_ns_path pid k hlo hhi hk] at h
  exact h

/-- The nine ways the loop of `main` can go, for a 32-bit pid. -/
theorem enter_loop_cases (o : Oracle) (pid : Int)
    (hlo : -(2 : Int) ^ 31 ≤ pid) (hhi : pid < 2 ^ 31) :
    ∃ (fd1 : Nat) (r1 : Int) (fd2 : Nat) (r2 : Int) (fd3 : Nat) (r3 : Int)
      (fd4 : Nat) (r4 : Int),
      ((List.range 4).forM fun i => enter_namespace o pid (namespaces.getD i "")) [] ∈
      ([ .halt (.exited EXIT_FAILURE) (joinOpenFail (ns_path_text pid "pid")),
        .halt (.exited EXIT_FAILURE) (joinSetnsFail (ns_path_text pid "pid") fd1 r1),
        .halt (.exited EXIT_FAILURE)
          (joinOk (ns_path_text pid "pid") fd1 r1 ++ joinOpenFail (ns_path_text pid "uts")),
        .halt (.exited EXIT_FAILURE)
          (joinOk (ns_path_text pid "pid") fd1 r1 ++
            joinSetnsFail (ns_path_text pid "uts") fd2 r2),
        .halt (.exited EXIT_FAILURE)
          (joinOk (ns_path_text pid "pid") fd1 r1 ++ joinOk (ns_path_text pid "uts") fd2 r2 ++
            joinOpenFail (ns_path_text pid "mnt")),
        .halt (.exited EXIT_FAILURE)
          (joinOk (ns_path_text pid "pid") fd1 r1 ++ joinOk (ns_path_text pid "uts") fd2 r2 ++
            joinSetnsFail (ns_path_text pid "mnt") fd3 r3),
        .halt (.exited EXIT_FAILURE)
          (joinOk (ns_path_text pid "pid") fd1 r1 ++ joinOk (ns_path_text pid "uts") fd2 r2 ++
            joinOk (ns_path_text pid "mnt") fd3 r3 ++ joinOpenFail (ns_path_text pid "net")),
        .halt (.exited EXIT_FAILURE)
          (joinOk (ns_path_text pid "pid") fd1 r1 ++ joinOk (ns_path_text pid "uts") fd2 r2 ++
            joinOk (ns_path_text pid "mnt") fd3 r3 ++
            joinSetnsFail (ns_path_text pid "net") fd4 r4),
        .ret ()
          (joinsOk (ns_path_text pid "pid") (ns_path_text pid "uts") (ns_path_text pid "mnt")
            (ns_path_text pid "net") fd1 r1 fd2 r2 fd3 r3 fd4 r4) ] : List (Res Unit)) := by
  rw [enter_loop_eq]
  have hk1 : "pid" ∈ namespaces := by simp [namespaces]
  have hk2 : "uts" ∈ namespaces := by simp [namespaces]
  have hk3 : "mnt" ∈ namespaces := by simp [namespaces]
  have hk4 : "net" ∈ namespaces := by simp [namespaces]
  generalize hp1 : ns_path_text pid "pid" = p1
  generalize hp2 : ns_path_text pid "uts" = p2
  generalize hp3 : ns_path_text pid "mnt" = p3
  generalize hp4 : ns_path_text pid "net" = p4
  obtain ⟨fd1, r1, h1 | h1 | h1⟩ := enter_namespace_cases32 o pid "pid" hlo hhi hk1 []
  all_goals (rw [hp1] at h1; try simp only [List.nil_append, List.append_assoc] at h1)
  rotate_left
  · exact ⟨0, 0, 0, 0, 0, 0, 0, 0, by simp [Proc.bind, h1]⟩
  · exact ⟨fd1, r1, 0, 0, 0, 0, 0, 0, by simp [Proc.bind, h1]⟩
  obtain ⟨fd2, r2, h2 | h2 | h2⟩ :=
    enter_namespace_cases32 o pid "uts" hlo hhi hk2 (joinOk p1 fd1 r1)
  all_goals (rw [hp2] at h2; try simp only [List.nil_append, List.append_assoc] at h2)
  rotate_left
  · exact ⟨fd1, r1, 0, 0, 0, 0, 0, 0, by simp [Proc.bind, h1, h2]⟩
  · exact ⟨fd1, r1, fd2, r2, 0, 0, 0, 0, by simp [Proc.bind, h1, h2]⟩
  obtain ⟨fd3, r3, h3 | h3 | h3⟩ :=
    enter_namespace_cases32 o pid "mnt" hlo hhi hk3 (joinOk p1 fd1 r1 ++ joinOk p2 fd2 r2)
  all_goals (rw [hp3] at h3; try simp only [List.nil_append, List.append_assoc] at h3)
  rotate_left
  · exact ⟨fd1, r1, fd2, r2, 0, 0, 0, 0, by simp [Proc.bind, h1, h2, h3]⟩
  · exact ⟨fd1, r1, fd2, r2, fd3, r3, 0, 0, by simp [Proc.bind, h1, h2, h3]⟩
  obtain ⟨fd4, r4, h4 | h4 | h4⟩ :=
    enter_namespace_cases32 o pid "net" hlo hhi hk4
      (joinOk p1 fd1 r1 ++ joinOk p2 fd2 r2 ++ joinOk p3 fd3 r3)
  all_goals (rw [hp4] at h4; try simp only [List.nil_append, List.append_assoc] at h4)
  rotate_left
  · exact ⟨fd1, r1, fd2, r2, fd3, r3, 0, 0, by simp [Proc.bind, h1, h2, h3, h4]⟩
  · exact ⟨fd1, r1, fd2, r2, fd3, r3, fd4, r4, by simp [Proc.bind, h1, h2, h3, h4]⟩
  exact ⟨fd1, r1, fd2, r2, fd3, r3, fd4, r4, by
    simp [Proc.bind, Proc.pure, h1, h2, h3, h4, joinsOk]⟩

/-- With fewer than four arguments the run is the usage message and `exit`. -/
theorem run_usage (o : Oracle) (argv : List String) (h : argv.length < 4) :
    run o argv = .halt (.exited EXIT_FAILURE)
      [.fprintf_stderr ("Usage: " ++ argv.getD 0 "(null)" ++
          " <PID> <rootfs> <command> [args...]\n"),
        .exit EXIT_FAILURE] := by
  unfold run main
  simp only [h, if_true, bind, Proc.bind, fprintf_stderr, exit, List.nil_append,
    List.singleton_append]

/-- With at least four arguments, every run of `main` is one of `runs`. -/
theorem main_cases (o : Oracle) (argv : List String) (h : 4 ≤ argv.length) :
    ∃ (fd1 : Nat) (r1 : Int) (fd2 : Nat) (r2 : Int) (fd3 : Nat) (r3 : Int)
      (fd4 : Nat) (r4 : Int),
      run o argv ∈ runs
        (ns_path_text (atoi (argv.getD 1 "")) "pid")
        (ns_path_text (atoi (argv.getD 1 "")) "uts")
        (ns_path_text (atoi (argv.getD 1 "")) "mnt")
        (ns_path_text (atoi (argv.getD 1 "")) "net")
        (argv.getD 2 "") (argv.getD 3 "") (argv.drop 3)
        fd1 r1 fd2 r2 fd3 r3 fd4 r4 := by
  obtain ⟨hlo, hhi⟩ := atoi_range (argv.getD 1 "")
  obtain ⟨fd1, r1, fd2, r2, fd3, r3, fd4, r4, hl⟩ :=
    enter_loop_cases o (atoi (argv.getD 1 "")) hlo hhi
  refine ⟨fd1, r1, fd2, r2, fd3, r3, fd4, r4, ?_⟩
  simp only [List.mem_cons, List.mem_singleton, List.not_mem_nil, or_false] at hl
  rcases hl with hl | hl | hl | hl | hl | hl | hl | hl | hl
  case inr.inr.inr.inr.inr.inr.inr.inr =>
    have ht := run_of_loop_ret o argv h _ hl
    simp only [List.mem_cons, List.mem_singleton, List.not_mem_nil, or_false] at ht
    simp only [runs, List.mem_cons, List.mem_singleton, List.not_mem_nil, or_false]
    rcases ht with ht | ht | ht | ht | ht | ht <;> simp [ht]
  all_goals
    rw [run_of_loop_halt o argv h _ _ hl]
    simp [runs]

/-! ## Recorded results are the oracle's -/

theorem faithful_nil (o : Oracle) : Faithful o [] := by
  intro pre e post h
  simp at h

/-- Adding an event that carries the oracle's value keeps a trace faithful. -/
theorem faithful_snoc (o : Oracle) (t : List Event) (e : Event) (ht : Faithful o t)
    (he : ∀ c r, e = .sys c r → r = retval o t c) : Faithful o (t ++ [e]) := by
  intro pre e1 post h c r hc
  rcases List.eq_nil_or_concat post with hp | ⟨post1, x, hp⟩
  · subst hp
    have h2 : t ++ [e] = pre ++ [e1] := h
    obtain ⟨h3, h4⟩ := List.append_inj' h2 rfl
    simp only [List.cons.injEq, and_true] at h4
    subst h3 h4
    exact he c r hc
  · subst hp
    have h2 : t ++ [e] = (pre ++ e1 :: post1) ++ [x] := by
      rw [h]; simp
    obtain ⟨h3, _⟩ := List.append_inj' h2 rfl
    exact ht pre e1 post1 h3 c r hc

/-- Returning a value keeps traces faithful. -/
theorem keeps_pure {α : Type} (o : Oracle) (a : α) : Keeps o (Proc.pure a) :=
  fun _ ht => ht

/-- Sequencing keeps traces faithful. -/
theorem keeps_bind {α β : Type} (o : Oracle) (m : Proc α) (f : α → Proc β)
    (hm : Keeps o m) (hf : ∀ a, Keeps o (f a)) : Keeps o (m.bind f) := by
  intro t ht
  have h1 := hm t ht
  unfold Proc.bind
  cases hmt : m t with
  | ret a t1 =>
    rw [hmt] at h1
    exact hf a t1 h1
  | halt hh t1 =>
    rw [hmt] at h1
    exact h1

/-- A conditional keeps traces faithful. -/
theorem keeps_ite {α : Type} (o : Oracle) (c : Prop) [Decidable c] (m1 m2 : Proc α)
    (h1 : Keeps o m1) (h2 : Keeps o m2) : Keeps o (if c then m1 else m2) := by
  split
  · exact h1
  · exact h2

/-- A system call keeps traces faithful. -/
theorem keeps_syscall (o : Oracle) (c : Call) : Keeps o (syscall o c) := by
  intro t ht
  apply faithful_snoc o t _ ht
  intro c1 r1 h
  simp only [Event.sys.injEq] at h
  rw [← h.1, ← h.2]

/-- The call of `execvp` keeps traces faithful. -/
theorem keeps_execvp (o : Oracle) (file : String) (argv : List String) :
    Keeps o (execvp o file argv) := by
  intro t ht
  unfold execvp
  split
  · rename_i hs
    apply faithful_snoc o t _ ht
    intro c1 r1 h
    simp only [Event.sys.injEq] at h
    obtain ⟨rfl, rfl⟩ := h
    simp [retval, hs]
  · rename_i hs
    apply faithful_snoc o t _ ht
    intro c1 r1 h
    simp only [Event.sys.injEq] at h
    obtain ⟨rfl, rfl⟩ := h
    simp [retval, hs]

/-- The call of `perror` keeps traces faithful. -/
theorem keeps_perror (o : Oracle) (s : String) : Keeps o (perror s) := by
  intro t ht
  exact faithful_snoc o t _ ht (fun c r h => by cases h)

/-- Writing the usage message keeps traces faithful. -/
theorem keeps_fprintf_stderr (o : Oracle) (s : String) : Keeps o (fprintf_stderr s) := by
  intro t ht
  exact faithful_snoc o t _ ht (fun c r h => by cases h)

/-- The call of `exit` keeps traces faithful. -/
theorem keeps_exit {α : Type} (o : Oracle) (status : Int) :
    Keeps o (exit status : Proc α) := by
  intro t ht
  exact faithful_snoc o t _ ht (fun c r h => by cases h)

/-- A loop over a list keeps traces faithful. -/
theorem keeps_forM {α : Type} (o : Oracle) (f : α → Proc PUnit) (l : List α)
    (hf : ∀ a, Keeps o (f a)) : Keeps o (l.forM f) := by
  induction l with
  | nil => exact keeps_pure o _
  | cons a l ih => exact keeps_bind o _ _ (hf a) (fun _ => ih)

/-- The function `enter_namespace` keeps traces faithful. -/
theorem keeps_enter_namespace (o : Oracle) (pid : Int) (k : String) :
    Keeps o (enter_namespace o pid k) := by
  unfold enter_namespace
  simp only [bind, pure]
  repeat' first
    | apply keeps_bind
    | apply keeps_ite
    | apply keeps_syscall
    | apply keeps_perror
    | apply keeps_exit
    | apply keeps_pure
    | intro _

/-- The function `main` keeps traces faithful. -/
theorem keeps_main (o : Oracle) (argv : List String) : Keeps o (main o argv) := by
  unfold main
  simp only [bind, pure]
  repeat' first
    | apply keeps_bind
    | apply keeps_ite
    | apply keeps_forM
    | apply keeps_enter_namespace
    | apply keeps_syscall
    | apply keeps_execvp
    | apply keeps_perror
    | apply keeps_fprintf_stderr
    | apply keeps_exit
    | apply keeps_pure
    | intro _

/-- Every result recorded in the trace of a run is the one the oracle gave:
a call is recorded as failed exactly when the oracle made it fail. -/
theorem run_faithful (o : Oracle) (argv : List String) : Faithful o (run o argv).trace :=
  keeps_main o argv [] (faithful_nil o)

/-- A system call of a run is recorded with `-1` exactly when the oracle made
it fail. -/
theorem failed_iff (o : Oracle) (argv : List String) (pre : List Event) (c : Call) (r : Int)
    (post : List Event) (h : (run o argv).trace = pre ++ .sys c r :: post) :
    r = -1 ↔ o.succeeds pre c = false := by
  have hr := run_faithful o argv pre _ post h c r rfl
  rw [hr]
  unfold retval
  cases hs : o.succeeds pre c
  · simp
  · cases c <;> simp

/-! ## Positions in a trace -/

theorem allSplits_iff {α : Type} (P : List α → α → List α → Prop) (done l : List α) :
    AllSplits P done l ↔ ∀ pre e post, l = pre ++ e :: post → P (done ++ pre) e post := by
  induction l generalizing done with
  | nil => simp [AllSplits]
  | cons a l ih =>
    simp only [AllSplits, ih]
    constructor
    · rintro ⟨h0, h1⟩ pre e post heq
      cases pre with
      | nil =>
        simp only [List.nil_append, List.cons.injEq] at heq
        obtain ⟨rfl, rfl⟩ := heq
        simpa using h0
      | cons b pre =>
        simp only [List.cons_append, List.cons.injEq] at heq
        obtain ⟨rfl, rfl⟩ := heq
        simpa using h1 pre e post rfl
    · intro hall
      refine ⟨by simpa using hall [] a l rfl, ?_⟩
      intro pre e post heq
      simpa using hall (a :: pre) e post (by simp [heq])

/-- A property of every position of a list, checked position by position. -/
theorem forall_split_of_allSplits {α : Type} (P : List α → α → List α → Prop) (l : List α)
    (h : AllSplits P [] l) : ∀ pre e post, l = pre ++ e :: post → P pre e post := by
  intro pre e post heq
  simpa using (allSplits_iff P [] l).1 h pre e post heq

/-- The formatted path determines the kind. -/
theorem ns_path_text_injective (pid : Int) : Function.Injective (ns_path_text pid) := by
  intro a b hab
  unfold ns_path_text at hab
  have h := congrArg String.data hab
  simp only [String.data_append] at h
  exact String.ext (List.append_cancel_left h)

/-- A prefix of a mapped list is the map of a prefix. -/
theorem prefix_map_elim {α β : Type} (f : α → β) (l : List β) (xs : List α)
    (h : l <+: xs.map f) : ∃ ks, ks <+: xs ∧ l = ks.map f := by
  refine ⟨xs.take l.length, List.take_prefix _ _, ?_⟩
  rw [List.map_take]
  exact List.prefix_iff_eq_take.1 h

/-- The paths of the four kinds for a pid, in the order of the joins. -/
theorem map_ns_path_text (pid : Int) :
    [ns_path_text pid "pid", ns_path_text pid "uts", ns_path_text pid "mnt",
      ns_path_text pid "net"] = namespaces.map (ns_path_text pid) := rfl

/-! ## The claims -/

/-- C1. For every argument vector with at least four entries and every oracle,
the paths of the `open` calls of the run are those of a prefix of the kinds
`pid, uts, mnt, net`, in that order and without repetition; so are the paths of
the `open` calls that returned a descriptor, and the paths of the joins that
succeeded. -/
theorem join_order (o : Oracle) (argv : List String) (h : 4 ≤ argv.length) :
    (∃ ks : List String, ks <+: ["pid", "uts", "mnt", "net"] ∧ ks.Nodup ∧
      openCalls (run o argv).trace =
        ks.map (fun k => "/proc/" ++ fmt_d (atoi (argv.getD 1 "")) ++ "/ns/" ++ k) ∧
      (openCalls (run o argv).trace).Nodup) ∧
    (∃ ks : List String, ks <+: ["pid", "uts", "mnt", "net"] ∧
      openedPaths (run o argv).trace =
        ks.map (fun k => "/proc/" ++ fmt_d (atoi (argv.getD 1 "")) ++ "/ns/" ++ k)) ∧
    (∃ ks : List String, ks <+: ["pid", "uts", "mnt", "net"] ∧
      joinedPaths (run o argv).trace =
        ks.map (fun k => "/proc/" ++ fmt_d (atoi (argv.getD 1 "")) ++ "/ns/" ++ k)) := by
  have key : openCalls (run o argv).trace <+:
        namespaces.map (ns_path_text (atoi (argv.getD 1 ""))) ∧
      openedPaths (run o argv).trace <+:
        namespaces.map (ns_path_text (atoi (argv.getD 1 ""))) ∧
      joinedPaths (run o argv).trace <+:
        namespaces.map (ns_path_text (atoi (argv.getD 1 ""))) := by
    obtain ⟨fd1, r1, fd2, r2, fd3, r3, fd4, r4, hr⟩ := main_cases o argv h
    rw [← map_ns_path_text]
    generalize ns_path_text (atoi (argv.getD 1 "")) "pid" = p1 at *
    generalize ns_path_text (atoi (argv.getD 1 "")) "uts" = p2 at *
    generalize ns_path_text (atoi (argv.getD 1 "")) "mnt" = p3 at *
    generalize ns_path_text (atoi (argv.getD 1 "")) "net" = p4 at *
    simp only [runs, List.mem_cons, List.mem_singleton, List.not_mem_nil, or_false] at hr
    rcases hr with hr | hr | hr | hr | hr | hr | hr | hr | hr | hr | hr | hr | hr | hr <;>
      rw [hr] <;>
      simp [Res.trace, openCalls, openedPaths, joinedPaths, joinOk, joinOpenFail,
        joinSetnsFail, joinsOk, rootOk, List.cons_prefix_cons]
  have hnd : (["pid", "uts", "mnt", "net"] : List String).Nodup := by decide
  obtain ⟨ks, hks, hk⟩ := prefix_map_elim _ _ _ key.1
  obtain ⟨ks2, hks2, hk2⟩ := prefix_map_elim _ _ _ key.2.1
  obtain ⟨ks3, hks3, hk3⟩ := prefix_map_elim _ _ _ key.2.2
  refine ⟨⟨ks, hks, hnd.sublist hks.sublist, hk, ?_⟩, ⟨ks2, hks2, hk2⟩, ⟨ks3, hks3, hk3⟩⟩
  rw [hk]
  exact (hnd.sublist hks.sublist).map (ns_path_text_injective _)

set_option maxRecDepth 100000 in
/-- C1, at a concrete run in which the `open` for the third kind fails: the
paths opened are those of `pid, uts, mnt`, the joins made those of `pid, uts`. -/
theorem join_order_witness :
    4 ≤ exampleArgv.length ∧
    openCalls (run (failAt 6) exampleArgv).trace =
      ["/proc/42/ns/pid", "/proc/42/ns/uts", "/proc/42/ns/mnt"] ∧
    joinedPaths (run (failAt 6) exampleArgv).trace = ["/proc/42/ns/pid", "/proc/42/ns/uts"] ∧
    ∃ ks : List String, ks <+: ["pid", "uts", "mnt", "net"] ∧
      openCalls (run (failAt 6) exampleArgv).trace =
        ks.map (fun k => "/proc/" ++ fmt_d (atoi "42") ++ "/ns/" ++ k) :=
  ⟨by decide, by decide, by decide,
    (join_order (failAt 6) exampleArgv (by decide)).1.elim
      fun ks hk => ⟨ks, hk.1, hk.2.2.1⟩⟩

/-- In a run with at least four arguments, an `open` recorded as failed is
followed only by its diagnostic and `exit`, and a `setns` recorded as failed
only by its diagnostic, the `close` of its descriptor and `exit`. -/
theorem recorded_failure_stops (o : Oracle) (argv : List String) (h : 4 ≤ argv.length) :
    ∀ pre e post, (run o argv).trace = pre ++ e :: post →
      (∀ p f, e = .sys (.open p f) (-1) →
        post = [.perror "open namespace", .exit EXIT_FAILURE] ∧ syscalls post = [] ∧
        ∃ t, run o argv = .halt (.exited EXIT_FAILURE) t) ∧
      (∀ fd n, e = .sys (.setns fd n) (-1) →
        (∃ r, post = [.perror "setns", .sys (.close fd) r, .exit EXIT_FAILURE]) ∧
        syscalls post = [.close fd] ∧
        (∃ p, pre.getLast? = some (.sys (.open p O_RDONLY) fd)) ∧
        ∃ t, run o argv = .halt (.exited EXIT_FAILURE) t) := by
  obtain ⟨fd1, r1, fd2, r2, fd3, r3, fd4, r4, hr⟩ := main_cases o argv h
  generalize ns_path_text (atoi (argv.getD 1 "")) "pid" = p1 at *
  generalize ns_path_text (atoi (argv.getD 1 "")) "uts" = p2 at *
  generalize ns_path_text (atoi (argv.getD 1 "")) "mnt" = p3 at *
  generalize ns_path_text (atoi (argv.getD 1 "")) "net" = p4 at *
  generalize argv.getD 2 "" = rootfs at *
  generalize argv.getD 3 "" = file at *
  generalize argv.drop 3 = args at *
  simp only [runs, List.mem_cons, List.mem_singleton, List.not_mem_nil, or_false] at hr
  rcases hr with hr | hr | hr | hr | hr | hr | hr | hr | hr | hr | hr | hr | hr | hr <;>
    rw [hr] <;> simp only [Res.trace] <;>
    apply forall_split_of_allSplits <;>
    simp [AllSplits, syscalls, joinOk, joinOpenFail, joinSetnsFail, joinsOk, rootOk]

/-- C2. Fail-fast: in a run with at least four arguments, when the oracle makes
the `open` of a namespace handle fail, the call returns `-1` and is followed
only by its diagnostic and `exit`; when it makes a `setns` fail, the call
returns `-1` and is followed only by its diagnostic, the `close` of the
descriptor it was called on (the one returned by the `open` just before) and
`exit`.  So no later handle is opened, no `stat`, `chdir`, `chroot` or `execvp`
is attempted, and the run ends in process exit. -/
theorem fail_fast (o : Oracle) (argv : List String) (h : 4 ≤ argv.length) :
    ∀ pre e post, (run o argv).trace = pre ++ e :: post →
      (∀ p f r, e = .sys (.open p f) r → o.succeeds pre (.open p f) = false →
        r = -1 ∧
        post = [.perror "open namespace", .exit EXIT_FAILURE] ∧ syscalls post = [] ∧
        ∃ t, run o argv = .halt (.exited EXIT_FAILURE) t) ∧
      (∀ fd n r, e = .sys (.setns fd n) r → o.succeeds pre (.setns fd n) = false →
        r = -1 ∧
        (∃ rc, post = [.perror "setns", .sys (.close fd) rc, .exit EXIT_FAILURE]) ∧
        syscalls post = [.close fd] ∧
        (∃ p, pre.getLast? = some (.sys (.open p O_RDONLY) fd)) ∧
        ∃ t, run o argv = .halt (.exited EXIT_FAILURE) t) := by
  intro pre e post heq
  constructor
  · intro p f r he hf
    subst he
    have hr : r = -1 := (failed_iff o argv pre _ r post heq).2 hf
    subst hr
    exact ⟨rfl, (recorded_failure_stops o argv h pre _ post heq).1 p f rfl⟩
  · intro fd n r he hf
    subst he
    have hr : r = -1 := (failed_iff o argv pre _ r post heq).2 hf
    subst hr
    exact ⟨rfl, (recorded_failure_stops o argv h pre _ post heq).2 fd n rfl⟩

set_option maxRecDepth 100000 in
/-- C2, at two concrete runs: one in which the first `open` fails, one in which
the `setns` of the second kind fails. -/
theorem fail_fast_witness :
    4 ≤ exampleArgv.length ∧
    (run (failAt 0) exampleArgv).trace =
      [] ++ .sys (.open "/proc/42/ns/pid" 0) (-1) ::
        [.perror "open namespace", .exit EXIT_FAILURE] ∧
    (failAt 0).succeeds [] (.open "/proc/42/ns/pid" 0) = false ∧
    (∃ t, run (failAt 0) exampleArgv = .halt (.exited EXIT_FAILURE) t) ∧
    (run (failAt 4) exampleArgv).trace =
      [.sys (.open "/proc/42/ns/pid" 0) 3, .sys (.setns 3 0) 0, .sys (.close 3) 0,
        .sys (.open "/proc/42/ns/uts" 0) 3] ++ .sys (.setns 3 0) (-1) ::
        [.perror "setns", .sys (.close 3) 0, .exit EXIT_FAILURE] ∧
    (failAt 4).succeeds
      [.sys (.open "/proc/42/ns/pid" 0) 3, .sys (.setns 3 0) 0, .sys (.close 3) 0,
        .sys (.open "/proc/42/ns/uts" 0) 3] (.setns 3 0) = false ∧
    syscalls [.perror "setns", .sys (.close 3) 0, .exit EXIT_FAILURE] = [.close 3] := by
  have h0 : (run (failAt 0) exampleArgv).trace =
      [] ++ .sys (.open "/proc/42/ns/pid" 0) (-1) ::
        [.perror "open namespace", .exit EXIT_FAILURE] := by decide
  have h4 : (run (failAt 4) exampleArgv).trace =
      [.sys (.open "/proc/42/ns/pid" 0) 3, .sys (.setns 3 0) 0, .sys (.close 3) 0,
        .sys (.open "/proc/42/ns/uts" 0) 3] ++ .sys (.setns 3 0) (-1) ::
        [.perror "setns", .sys (.close 3) 0, .exit EXIT_FAILURE] := by decide
  have f0 : (failAt 0).succeeds [] (.open "/proc/42/ns/pid" 0) = false := by decide
  have f4 : (failAt 4).succeeds
      [.sys (.open "/proc/42/ns/pid" 0) 3, .sys (.setns 3 0) 0, .sys (.close 3) 0,
        .sys (.open "/proc/42/ns/uts" 0) 3] (.setns 3 0) = false := by decide
  exact ⟨by decide, h0, f0,
    ((fail_fast (failAt 0) exampleArgv (by decide) _ _ _ h0).1 _ _ _ rfl f0).2.2.2, h4, f4,
    ((fail_fast (failAt 4) exampleArgv (by decide) _ _ _ h4).2 _ _ _ rfl f4).2.2.1⟩

/-- Equal formatted paths have equal kinds. -/
theorem ns_path_text_inj (pid : Int) (a b : String) :
    ns_path_text pid a = ns_path_text pid b ↔ a = b :=
  (ns_path_text_injective pid).eq_iff

/-- C3. In a run with at least four arguments, `stat` of the rootfs path
`argv[2]` is attempted if and only if all four joins succeeded: for each of the
kinds `pid, uts, mnt, net` the trace holds a successful `open` of its handle
directly followed by a successful `setns` on the descriptor returned. -/
theorem root_switch_iff_joins (o : Oracle) (argv : List String) (h : 4 ≤ argv.length) :
    (∃ r, Event.sys (.stat (argv.getD 2 "")) r ∈ (run o argv).trace) ↔
      ∀ k ∈ ["pid", "uts", "mnt", "net"], ∃ fd : Nat,
        [Event.sys (.open ("/proc/" ++ fmt_d (atoi (argv.getD 1 "")) ++ "/ns/" ++ k) O_RDONLY) fd,
          Event.sys (.setns fd 0) 0] <:+: (run o argv).trace := by
  obtain ⟨fd1, r1, fd2, r2, fd3, r3, fd4, r4, hr⟩ := main_cases o argv h
  change _ ↔ ∀ k ∈ ["pid", "uts", "mnt", "net"], ∃ fd : Nat,
        [Event.sys (.open (ns_path_text (atoi (argv.getD 1 "")) k) O_RDONLY) fd,
          Event.sys (.setns fd 0) 0] <:+: (run o argv).trace
  generalize atoi (argv.getD 1 "") = pid at *
  generalize argv.getD 2 "" = rootfs at *
  generalize argv.getD 3 "" = file at *
  generalize argv.drop 3 = args at *
  simp only [runs, List.mem_cons, List.mem_singleton, List.not_mem_nil, or_false] at hr
  rcases hr with hr | hr | hr | hr | hr | hr | hr | hr | hr | hr | hr | hr | hr | hr <;>
    rw [hr] <;> simp only [Res.trace] <;>
    simp [joinOk, joinOpenFail, joinSetnsFail, joinsOk, rootOk, List.infix_cons_iff,
      List.cons_prefix_cons, ns_path_text_inj]
  all_goals exact ⟨"net", fun _ _ _ => rfl⟩

set_option maxRecDepth 100000 in
/-- C3, at a concrete argument vector and the oracle under which every call
succeeds: `stat` is attempted and all four joins succeeded. -/
theorem root_switch_iff_joins_witness :
    4 ≤ exampleArgv.length ∧
    (∃ r, Event.sys (.stat "/rootfs") r ∈ (run (failAt 99) exampleArgv).trace) ∧
    ∀ k ∈ ["pid", "uts", "mnt", "net"], ∃ fd : Nat,
      [Event.sys (.open ("/proc/" ++ fmt_d (atoi "42") ++ "/ns/" ++ k) O_RDONLY) fd,
        Event.sys (.setns fd 0) 0] <:+: (run (failAt 99) exampleArgv).trace :=
  ⟨by decide, ⟨0, by decide⟩,
    (root_switch_iff_joins (failAt 99) exampleArgv (by decide)).1 ⟨0, by decide⟩⟩

/-- C4. In a run with at least four arguments, `execvp` is attempted if and only
if the root switch fully succeeded: the trace holds the successful calls
`stat(rootfs)`, `chdir(rootfs)`, `chroot(".")`, `chdir("/")` one after the
other.  In particular a failed `chdir("/")` after the `chroot` prevents
`execvp`. -/
theorem exec_iff_root_switch (o : Oracle) (argv : List String) (h : 4 ≤ argv.length) :
    ((∃ f a r, Event.sys (.execvp f a) r ∈ (run o argv).trace) ↔
      [Event.sys (.stat (argv.getD 2 "")) 0, Event.sys (.chdir (argv.getD 2 "")) 0,
        Event.sys (.chroot ".") 0, Event.sys (.chdir "/") 0] <:+: (run o argv).trace) ∧
    ([Event.sys (.chroot ".") 0, Event.sys (.chdir "/") (-1)] <:+: (run o argv).trace →
      ¬ ∃ f a r, Event.sys (.execvp f a) r ∈ (run o argv).trace) := by
  obtain ⟨fd1, r1, fd2, r2, fd3, r3, fd4, r4, hr⟩ := main_cases o argv h
  generalize ns_path_text (atoi (argv.getD 1 "")) "pid" = p1 at *
  generalize ns_path_text (atoi (argv.getD 1 "")) "uts" = p2 at *
  generalize ns_path_text (atoi (argv.getD 1 "")) "mnt" = p3 at *
  generalize ns_path_text (atoi (argv.getD 1 "")) "net" = p4 at *
  generalize argv.getD 2 "" = rootfs at *
  generalize argv.getD 3 "" = file at *
  generalize argv.drop 3 = args at *
  simp only [runs, List.mem_cons, List.mem_singleton, List.not_mem_nil, or_false] at hr
  rcases hr with hr | hr | hr | hr | hr | hr | hr | hr | hr | hr | hr | hr | hr | hr <;>
    rw [hr] <;> simp only [Res.trace] <;>
    simp [joinOk, joinOpenFail, joinSetnsFail, joinsOk, rootOk, List.infix_cons_iff,
      List.cons_prefix_cons]

set_option maxRecDepth 100000 in
/-- C4, at two concrete runs: one in which every call succeeds, so that `execvp`
is attempted, and one in which the final `chdir("/")` fails. -/
theorem exec_iff_root_switch_witness :
    4 ≤ exampleArgv.length ∧
    (∃ f a r, Event.sys (.execvp f a) r ∈ (run (failAt 99) exampleArgv).trace) ∧
    [Event.sys (.chroot ".") 0, Event.sys (.chdir "/") (-1)] <:+:
      (run (failAt 15) exampleArgv).trace ∧
    ¬ ∃ f a r, Event.sys (.execvp f a) r ∈ (run (failAt 15) exampleArgv).trace := by
  have h1 : [Event.sys (.stat (exampleArgv.getD 2 "")) 0,
      Event.sys (.chdir (exampleArgv.getD 2 "")) 0,
      Event.sys (.chroot ".") 0, Event.sys (.chdir "/") 0] <:+:
      (run (failAt 99) exampleArgv).trace := by decide
  have h2 : [Event.sys (.chroot ".") 0, Event.sys (.chdir "/") (-1)] <:+:
      (run (failAt 15) exampleArgv).trace := by decide
  exact ⟨by decide, (exec_iff_root_switch (failAt 99) exampleArgv (by decide)).1.2 h1, h2,
    (exec_iff_root_switch (failAt 15) exampleArgv (by decide)).2 h2⟩

/-- C5. The namespace handle is never retained.  A call of `enter_namespace`
(any pid, kind, oracle and earlier trace) first makes its `open`; when that
fails it makes no `close`; when it returns a descriptor, `setns` is called on
it and, whatever `setns` returns, `close` is called exactly once, on that
descriptor; afterwards the open descriptors are those open before the call.
Consequently, in every run of `main`, no namespace handle is open when a
handle is opened, when `stat` (the start of the root switch) or `execvp` is
called, or when the process exits. -/
theorem handle_not_retained (o : Oracle) :
    (∀ (pid : Int) (k : String) (t : List Event), ∃ r0 rest,
      (enter_namespace o pid k t).trace =
        t ++ .sys (.open (snprintf 256 (ns_path_text pid k)) O_RDONLY) r0 :: rest ∧
      (r0 = -1 → closeCalls rest = []) ∧
      (r0 ≠ -1 → (∃ rs, rest.head? = some (.sys (.setns r0 0) rs)) ∧
        closeCalls rest = [r0]) ∧
      ∀ hs, openHandles hs
        (.sys (.open (snprintf 256 (ns_path_text pid k)) O_RDONLY) r0 :: rest) = hs) ∧
    (∀ (argv : List String) pre e post, (run o argv).trace = pre ++ e :: post →
      ((∃ p f r, e = .sys (.open p f) r) ∨ (∃ p r, e = .sys (.stat p) r) ∨
        (∃ f a r, e = .sys (.execvp f a) r) ∨ (∃ s, e = .exit s)) →
      openHandles [] pre = []) := by
  constructor
  · intro pid k t
    obtain ⟨fd, r, hc | hc | hc⟩ := enter_namespace_cases o pid k t
    · refine ⟨fd, [.sys (.setns fd 0) 0, .sys (.close fd) r], ?_⟩
      simp [hc, Res.trace, joinOk, closeCalls, openHandles]
    · refine ⟨-1, [.perror "open namespace", .exit EXIT_FAILURE], ?_⟩
      simp [hc, Res.trace, joinOpenFail, closeCalls, openHandles]
    · refine ⟨fd, [.sys (.setns fd 0) (-1), .perror "setns", .sys (.close fd) r,
        .exit EXIT_FAILURE], ?_⟩
      simp [hc, Res.trace, joinSetnsFail, closeCalls, openHandles]
  · intro argv
    by_cases h : argv.length < 4
    · rw [run_usage o argv h]
      simp only [Res.trace]
      apply forall_split_of_allSplits
      simp [AllSplits, openHandles]
    · obtain ⟨fd1, r1, fd2, r2, fd3, r3, fd4, r4, hr⟩ := main_cases o argv (by omega)
      generalize ns_path_text (atoi (argv.getD 1 "")) "pid" = p1 at *
      generalize ns_path_text (atoi (argv.getD 1 "")) "uts" = p2 at *
      generalize ns_path_text (atoi (argv.getD 1 "")) "mnt" = p3 at *
      generalize ns_path_text (atoi (argv.getD 1 "")) "net" = p4 at *
      generalize argv.getD 2 "" = rootfs at *
      generalize argv.getD 3 "" = file at *
      generalize argv.drop 3 = args at *
      simp only [runs, List.mem_cons, List.mem_singleton, List.not_mem_nil, or_false] at hr
      rcases hr with hr | hr | hr | hr | hr | hr | hr | hr | hr | hr | hr | hr | hr | hr <;>
        rw [hr] <;> simp only [Res.trace] <;>
        apply forall_split_of_allSplits <;>
        simp only [AllSplits, joinOk, joinOpenFail, joinSetnsFail, joinsOk, rootOk,
          List.nil_append, List.cons_append, List.append_assoc, and_true] <;>
        refine ⟨?_, ?_⟩ <;> simp [openHandles]

set_option maxRecDepth 100000 in
/-- C5, at a concrete run that exits after a failed `setns`: no handle is open
at the `exit`. -/
theorem handle_not_retained_witness :
    (run (failAt 1) exampleArgv).trace =
      [.sys (.open "/proc/42/ns/pid" 0) 3, .sys (.setns 3 0) (-1), .perror "setns",
        .sys (.close 3) 0] ++ .exit EXIT_FAILURE :: [] ∧
    openHandles []
      [.sys (.open "/proc/42/ns/pid" 0) 3, .sys (.setns 3 0) (-1), .perror "setns",
        .sys (.close 3) 0] = [] := by
  have h1 : (run (failAt 1) exampleArgv).trace =
      [.sys (.open "/proc/42/ns/pid" 0) 3, .sys (.setns 3 0) (-1), .perror "setns",
        .sys (.close 3) 0] ++ .exit EXIT_FAILURE :: [] := by decide
  exact ⟨h1, (handle_not_retained (failAt 1)).2 exampleArgv _ _ _ h1
    (Or.inr (Or.inr (Or.inr ⟨_, rfl⟩)))⟩

/-- Every run ends with the process image replaced or with exit status
`EXIT_FAILURE`, the latter whenever a call other than `close` is recorded as
failed. -/
theorem ends_replaced_or_exit (o : Oracle) (argv : List String) :
    ((∃ t, run o argv = .halt .replaced t ∧
        t.getLast? = some (.sys (.execvp (argv.getD 3 "") (argv.drop 3)) 0)) ∨
      (∃ t, run o argv = .halt (.exited EXIT_FAILURE) t ∧
        t.getLast? = some (.exit EXIT_FAILURE))) ∧
    ¬ ((∃ t, run o argv = .halt .replaced t) ∧
      (∃ t, run o argv = .halt (.exited EXIT_FAILURE) t)) ∧
    EXIT_FAILURE ≠ 0 ∧
    (∀ v t, run o argv ≠ .ret v t) ∧
    (∀ t, run o argv ≠ .halt (.exited 0) t) ∧
    (argv.length < 4 → ∃ t, run o argv = .halt (.exited EXIT_FAILURE) t) ∧
    (∀ c, Event.sys c (-1) ∈ (run o argv).trace → (∀ fd, c ≠ .close fd) →
      ∃ t, run o argv = .halt (.exited EXIT_FAILURE) t) := by
  by_cases h : argv.length < 4
  · rw [run_usage o argv h]
    simp [Res.trace, EXIT_FAILURE]
  · obtain ⟨fd1, r1, fd2, r2, fd3, r3, fd4, r4, hr⟩ := main_cases o argv (by omega)
    generalize ns_path_text (atoi (argv.getD 1 "")) "pid" = p1 at *
    generalize ns_path_text (atoi (argv.getD 1 "")) "uts" = p2 at *
    generalize ns_path_text (atoi (argv.getD 1 "")) "mnt" = p3 at *
    generalize ns_path_text (atoi (argv.getD 1 "")) "net" = p4 at *
    generalize argv.getD 2 "" = rootfs at *
    generalize argv.getD 3 "" = file at *
    generalize argv.drop 3 = args at *
    simp only [runs, List.mem_cons, List.mem_singleton, List.not_mem_nil, or_false] at hr
    rcases hr with hr | hr | hr | hr | hr | hr | hr | hr | hr | hr | hr | hr | hr | hr <;>
      rw [hr] <;>
      simp [Res.trace, EXIT_FAILURE, h, joinOk, joinOpenFail, joinSetnsFail, joinsOk, rootOk]
    rintro c (⟨rfl, _⟩ | ⟨rfl, _⟩ | ⟨rfl, _⟩ | ⟨rfl, _⟩) <;> exact ⟨_, rfl⟩

/-- C6. Every run of `main`, for every argument vector and oracle, ends in
exactly one of two ways: a successful `execvp` replaces the process image, or
the process exits with `EXIT_FAILURE`, which is not zero.  `main` never
returns and the program never exits with status 0.  With fewer than four
arguments, and whenever the oracle makes a call other than `close` fail (that
is `open`, `setns`, `stat`, `chdir`, `chroot` or `execvp`), the run ends in that
exit. -/
theorem run_ends (o : Oracle) (argv : List String) :
    ((∃ t, run o argv = .halt .replaced t ∧
        t.getLast? = some (.sys (.execvp (argv.getD 3 "") (argv.drop 3)) 0)) ∨
      (∃ t, run o argv = .halt (.exited EXIT_FAILURE) t ∧
        t.getLast? = some (.exit EXIT_FAILURE))) ∧
    ¬ ((∃ t, run o argv = .halt .replaced t) ∧
      (∃ t, run o argv = .halt (.exited EXIT_FAILURE) t)) ∧
    EXIT_FAILURE ≠ 0 ∧
    (∀ v t, run o argv ≠ .ret v t) ∧
    (∀ t, run o argv ≠ .halt (.exited 0) t) ∧
    (argv.length < 4 → ∃ t, run o argv = .halt (.exited EXIT_FAILURE) t) ∧
    (∀ pre c r post, (run o argv).trace = pre ++ .sys c r :: post →
      o.succeeds pre c = false → (∀ fd, c ≠ .close fd) →
      r = -1 ∧ ∃ t, run o argv = .halt (.exited EXIT_FAILURE) t) := by
  obtain ⟨h1, h2, h3, h4, h5, h6, h7⟩ := ends_replaced_or_exit o argv
  refine ⟨h1, h2, h3, h4, h5, h6, ?_⟩
  intro pre c r post heq hf hc
  have hr : r = -1 := (failed_iff o argv pre c r post heq).2 hf
  subst hr
  exact ⟨rfl, h7 c (by rw [heq]; simp) hc⟩

set_option maxRecDepth 100000 in
/-- C6, at two concrete runs: too few arguments, and a failed `chroot`. -/
theorem run_ends_witness :
    ["helper", "42"].length < 4 ∧
    (∃ t, run (failAt 99) ["helper", "42"] = .halt (.exited EXIT_FAILURE) t) ∧
    (run (failAt 14) exampleArgv).trace =
      (run (failAt 14) exampleArgv).trace.take 14 ++ .sys (.chroot ".") (-1) ::
        [.perror "chroot", .exit EXIT_FAILURE] ∧
    (failAt 14).succeeds ((run (failAt 14) exampleArgv).trace.take 14) (.chroot ".") = false ∧
    (∃ t, run (failAt 14) exampleArgv = .halt (.exited EXIT_FAILURE) t) := by
  have h1 : (run (failAt 14) exampleArgv).trace =
      (run (failAt 14) exampleArgv).trace.take 14 ++ .sys (.chroot ".") (-1) ::
        [.perror "chroot", .exit EXIT_FAILURE] := by decide
  have h2 : (failAt 14).succeeds ((run (failAt 14) exampleArgv).trace.take 14)
      (.chroot ".") = false := by decide
  exact ⟨by decide, (run_ends (failAt 99) ["helper", "42"]).2.2.2.2.2.1 (by decide), h1, h2,
    ((run_ends (failAt 14) exampleArgv).2.2.2.2.2.2 _ _ _ _ h1 h2
      (fun _ hc => by cases hc)).2⟩

/-- The texts of the seven points of failure are pairwise distinct. -/
theorem step_name_injective : Function.Injective Step.name := by
  intro a b hab
  cases a <;> cases b <;> first | rfl | (exact absurd hab (by decide))

/-- In a run with at least four arguments, a failing step is followed by its
own diagnostic and then `exit`, and that diagnostic is all the run writes to
the error channel. -/
theorem diagnostic_of_failure (o : Oracle) (argv : List String) (h : 4 ≤ argv.length) :
    ∀ pre e post, (run o argv).trace = pre ++ e :: post →
      ∀ c, e = .sys c (-1) → ∀ s, stepOf pre c = some s →
        diagnostics (run o argv).trace = [.perror s.name] ∧
        diagnostics pre = [] ∧
        (post = [.perror s.name, .exit EXIT_FAILURE] ∨
          ∃ fd r, post = [.perror s.name, .sys (.close fd) r, .exit EXIT_FAILURE]) := by
  obtain ⟨fd1, r1, fd2, r2, fd3, r3, fd4, r4, hr⟩ := main_cases o argv h
  generalize ns_path_text (atoi (argv.getD 1 "")) "pid" = p1 at *
  generalize ns_path_text (atoi (argv.getD 1 "")) "uts" = p2 at *
  generalize ns_path_text (atoi (argv.getD 1 "")) "mnt" = p3 at *
  generalize ns_path_text (atoi (argv.getD 1 "")) "net" = p4 at *
  generalize argv.getD 2 "" = rootfs at *
  generalize argv.getD 3 "" = file at *
  generalize argv.drop 3 = args at *
  simp only [runs, List.mem_cons, List.mem_singleton, List.not_mem_nil, or_false] at hr
  rcases hr with hr | hr | hr | hr | hr | hr | hr | hr | hr | hr | hr | hr | hr | hr <;>
    rw [hr] <;> simp only [Res.trace] <;>
    apply forall_split_of_allSplits <;>
    simp only [AllSplits, joinOk, joinOpenFail, joinSetnsFail, joinsOk, rootOk,
      List.nil_append, List.cons_append, List.append_assoc, and_true] <;>
    refine ⟨?_, ?_⟩ <;>
    simp [diagnostics, stepOf, calledChroot, syscalls, Step.name]

/-- In a run with at least four arguments that exits, exactly one diagnostic
is written. -/
theorem one_diagnostic_of_exit (o : Oracle) (argv : List String) (h : 4 ≤ argv.length)
    (t : List Event) (he : run o argv = .halt (.exited EXIT_FAILURE) t) :
    (diagnostics (run o argv).trace).length = 1 := by
  obtain ⟨fd1, r1, fd2, r2, fd3, r3, fd4, r4, hr⟩ := main_cases o argv h
  generalize ns_path_text (atoi (argv.getD 1 "")) "pid" = p1 at *
  generalize ns_path_text (atoi (argv.getD 1 "")) "uts" = p2 at *
  generalize ns_path_text (atoi (argv.getD 1 "")) "mnt" = p3 at *
  generalize ns_path_text (atoi (argv.getD 1 "")) "net" = p4 at *
  generalize argv.getD 2 "" = rootfs at *
  generalize argv.getD 3 "" = file at *
  generalize argv.drop 3 = args at *
  simp only [runs, List.mem_cons, List.mem_singleton, List.not_mem_nil, or_false] at hr
  rcases hr with hr | hr | hr | hr | hr | hr | hr | hr | hr | hr | hr | hr | hr | hr <;>
    rw [hr] at he ⊢ <;>
    simp [Res.trace, diagnostics, joinOk, joinOpenFail, joinSetnsFail, joinsOk, rootOk] at he ⊢

/-- C7. In a run with at least four arguments in which the oracle makes a
checked call fail, the call returns `-1` and exactly one diagnostic is written
to the error channel; it is written right after the failing call and before
`exit`, and its text is the name of the failing step.  The seven names are
`open namespace`, `setns`, `stat rootfs`, `chdir to rootfs`, `chroot`,
`chdir to /` and `execvp`, pairwise distinct, so that two runs failing at
different steps write different diagnostics. -/
theorem failure_diagnostic (o : Oracle) (argv : List String) (h : 4 ≤ argv.length) :
    (∀ pre e post, (run o argv).trace = pre ++ e :: post →
      ∀ c r, e = .sys c r → o.succeeds pre c = false → ∀ s, stepOf pre c = some s →
        r = -1 ∧
        diagnostics (run o argv).trace = [.perror s.name] ∧
        diagnostics pre = [] ∧
        (post = [.perror s.name, .exit EXIT_FAILURE] ∨
          ∃ fd rc, post = [.perror s.name, .sys (.close fd) rc, .exit EXIT_FAILURE])) ∧
    ((∃ t, run o argv = .halt (.exited EXIT_FAILURE) t) →
      (diagnostics (run o argv).trace).length = 1) ∧
    [Step.OpenFailed, .AttachFailed, .StatFailed, .ChdirFailed, .RootReanchorFailed,
        .ChdirRootFailed, .ExecFailed].map Step.name =
      ["open namespace", "setns", "stat rootfs", "chdir to rootfs", "chroot", "chdir to /",
        "execvp"] ∧
    Function.Injective Step.name ∧
    (∀ (o2 : Oracle) (argv2 : List String), 4 ≤ argv2.length →
      ∀ pre c r post s pre2 c2 r2 post2 s2,
        (run o argv).trace = pre ++ .sys c r :: post → o.succeeds pre c = false →
        stepOf pre c = some s →
        (run o2 argv2).trace = pre2 ++ .sys c2 r2 :: post2 → o2.succeeds pre2 c2 = false →
        stepOf pre2 c2 = some s2 →
        s ≠ s2 → diagnostics (run o argv).trace ≠ diagnostics (run o2 argv2).trace) := by
  refine ⟨?_, ?_, rfl, step_name_injective, ?_⟩
  · intro pre e post heq c r he hf s hs
    subst he
    have hr : r = -1 := (failed_iff o argv pre c r post heq).2 hf
    subst hr
    exact ⟨rfl, diagnostic_of_failure o argv h pre _ post heq c rfl s hs⟩
  · rintro ⟨t, ht⟩
    exact one_diagnostic_of_exit o argv h t ht
  · intro o2 argv2 h2 pre c r post s pre2 c2 r2 post2 s2 e1 f1 hs1 e2 f2 hs2 hne heq
    have hr1 : r = -1 := (failed_iff o argv pre c r post e1).2 f1
    have hr2 : r2 = -1 := (failed_iff o2 argv2 pre2 c2 r2 post2 e2).2 f2
    subst hr1 hr2
    rw [(diagnostic_of_failure o argv h pre _ post e1 c rfl s hs1).1,
      (diagnostic_of_failure o2 argv2 h2 pre2 _ post2 e2 c2 rfl s2 hs2).1] at heq
    simp only [List.cons.injEq, Event.perror.injEq, and_true] at heq
    exact hne (step_name_injective heq)

set_option maxRecDepth 100000 in
/-- C7, at two concrete runs: `chdir(rootfs)` fails in the first and
`chdir("/")` in the second; each writes its own diagnostic. -/
theorem failure_diagnostic_witness :
    4 ≤ exampleArgv.length ∧
    diagnostics (run (failAt 13) exampleArgv).trace = [.perror "chdir to rootfs"] ∧
    diagnostics (run (failAt 15) exampleArgv).trace = [.perror "chdir to /"] ∧
    diagnostics (run (failAt 13) exampleArgv).trace ≠
      diagnostics (run (failAt 15) exampleArgv).trace := by
  have e1 : (run (failAt 13) exampleArgv).trace =
      (run (failAt 13) exampleArgv).trace.take 13 ++ .sys (.chdir "/rootfs") (-1) ::
        [.perror "chdir to rootfs", .exit EXIT_FAILURE] := by decide
  have e2 : (run (failAt 15) exampleArgv).trace =
      (run (failAt 15) exampleArgv).trace.take 15 ++ .sys (.chdir "/") (-1) ::
        [.perror "chdir to /", .exit EXIT_FAILURE] := by decide
  have f1 : (failAt 13).succeeds ((run (failAt 13) exampleArgv).trace.take 13)
      (.chdir "/rootfs") = false := by decide
  have f2 : (failAt 15).succeeds ((run (failAt 15) exampleArgv).trace.take 15)
      (.chdir "/") = false := by decide
  have s1 : stepOf ((run (failAt 13) exampleArgv).trace.take 13) (.chdir "/rootfs") =
      some .ChdirFailed := by decide
  have s2 : stepOf ((run (failAt 15) exampleArgv).trace.take 15) (.chdir "/") =
      some .ChdirRootFailed := by decide
  exact ⟨by decide,
    ((failure_diagnostic (failAt 13) exampleArgv (by decide)).1 _ _ _ e1 _ _ rfl f1 _ s1).2.1,
    ((failure_diagnostic (failAt 15) exampleArgv (by decide)).1 _ _ _ e2 _ _ rfl f2 _ s2).2.1,
    (failure_diagnostic (failAt 13) exampleArgv (by decide)).2.2.2.2 (failAt 15) exampleArgv
      (by decide) _ _ _ _ _ _ _ _ _ _ e1 f1 s1 e2 f2 s2 (by decide)⟩

/-- In a run with at least four arguments, any `execvp` in the trace is the
call `execvp(argv[3], &argv[3])`. -/
theorem execvp_in_trace (o : Oracle) (argv : List String) (h : 4 ≤ argv.length)
    (f : String) (a : List String) (r : Int)
    (hm : Event.sys (.execvp f a) r ∈ (run o argv).trace) :
    f = argv.getD 3 "" ∧ a = argv.drop 3 := by
  obtain ⟨fd1, r1, fd2, r2, fd3, r3, fd4, r4, hr⟩ := main_cases o argv h
  generalize ns_path_text (atoi (argv.getD 1 "")) "pid" = p1 at *
  generalize ns_path_text (atoi (argv.getD 1 "")) "uts" = p2 at *
  generalize ns_path_text (atoi (argv.getD 1 "")) "mnt" = p3 at *
  generalize ns_path_text (atoi (argv.getD 1 "")) "net" = p4 at *
  generalize argv.getD 2 "" = rootfs at *
  generalize argv.getD 3 "" = file at *
  generalize argv.drop 3 = args at *
  simp only [runs, List.mem_cons, List.mem_singleton, List.not_mem_nil, or_false] at hr
  rcases hr with hr | hr | hr | hr | hr | hr | hr | hr | hr | hr | hr | hr | hr | hr <;>
    rw [hr] at hm <;>
    simp [Res.trace, joinOk, joinOpenFail, joinSetnsFail, joinsOk, rootOk] at hm
  · exact ⟨hm.1.1, hm.1.2⟩
  · exact ⟨hm.1.1, hm.1.2⟩

/-- C8. In a run on `argv` with at least four entries, whenever `execvp` is
attempted its command name is `argv[3]` and its argument vector is
`argv[3], argv[4], ...` to the end, unchanged and in order: argument zero is the
command name, and the first three entries of `argv` (program name, pid and
rootfs) are left out. -/
theorem exec_arguments (o : Oracle) (argv : List String) (h : 4 ≤ argv.length) :
    ∀ f a r, Event.sys (.execvp f a) r ∈ (run o argv).trace →
      argv[3]? = some f ∧ a = argv.drop 3 ∧ a.head? = some f ∧
      argv = argv.take 3 ++ a ∧ (argv.take 3).length = 3 ∧
      a.length = argv.length - 3 ∧ ∀ i, a[i]? = argv[3 + i]? := by
  intro f a r hm
  obtain ⟨hf, ha⟩ := execvp_in_trace o argv h f a r hm
  subst ha
  have h3 : argv[3]? = some f := by
    rw [hf, List.getD_eq_getElem?_getD, List.getElem?_eq_getElem (by omega)]
    rfl
  refine ⟨h3, rfl, ?_, (List.take_append_drop 3 argv).symm, ?_, ?_, ?_⟩
  · rw [List.head?_drop, h3]
  · rw [List.length_take]; omega
  · rw [List.length_drop]
  · intro i
    rw [List.getElem?_drop]

set_option maxRecDepth 100000 in
/-- C8, at the concrete run in which every call succeeds. -/
theorem exec_arguments_witness :
    4 ≤ exampleArgv.length ∧
    Event.sys (.execvp "/bin/sh" ["/bin/sh", "-c", "ls"]) 0 ∈
      (run (failAt 99) exampleArgv).trace ∧
    exampleArgv[3]? = some "/bin/sh" ∧
    ["/bin/sh", "-c", "ls"] = exampleArgv.drop 3 := by
  have hm : Event.sys (.execvp "/bin/sh" ["/bin/sh", "-c", "ls"]) 0 ∈
      (run (failAt 99) exampleArgv).trace := by decide
  exact ⟨by decide, hm,
    (exec_arguments (failAt 99) exampleArgv (by decide) _ _ _ hm).1,
    (exec_arguments (failAt 99) exampleArgv (by decide) _ _ _ hm).2.1⟩

/-- When every call other than `execvp` succeeds, a join returns. -/
theorem enter_namespace_ok (o : Oracle)
    (hok : ∀ t c, (∀ f a, c ≠ .execvp f a) → o.succeeds t c = true)
    (pid : Int) (k : String) (t : List Event) :
    ∃ fd : Nat, enter_namespace o pid k t =
      .ret () (t ++ joinOk (snprintf 256 (ns_path_text pid k)) fd 0) := by
  refine ⟨o.fd t, ?_⟩
  have hopen : ∀ t p fl, retval o t (.open p fl) = (o.fd t : Int) := by
    intro t p fl
    simp [retval, hok t (.open p fl) (by simp)]
  have hsetns : ∀ t a b, retval o t (.setns a b) = 0 := by
    intro t a b
    simp [retval, hok t (.setns a b) (by simp)]
  have hclose : ∀ t a, retval o t (.close a) = 0 := by
    intro t a
    simp [retval, hok t (.close a) (by simp)]
  simp [enter_namespace, bind, pure, Proc.bind, Proc.pure, syscall, perror, exit, joinOk,
    hopen, hsetns, hclose]

/-- When every call other than `execvp` succeeds, the run is the four joins,
the root switch and `execvp`; it ends with the process image replaced when
`execvp` succeeds, and with the `execvp` diagnostic and `exit` otherwise. -/
theorem success_run (o : Oracle) (argv : List String) (h : 4 ≤ argv.length)
    (hok : ∀ t c, (∀ f a, c ≠ .execvp f a) → o.succeeds t c = true) :
    ∃ fd1 fd2 fd3 fd4 : Nat,
      run o argv =
        if o.succeeds (joinsOk
            (ns_path_text (atoi (argv.getD 1 "")) "pid")
            (ns_path_text (atoi (argv.getD 1 "")) "uts")
            (ns_path_text (atoi (argv.getD 1 "")) "mnt")
            (ns_path_text (atoi (argv.getD 1 "")) "net")
            fd1 0 fd2 0 fd3 0 fd4 0 ++ rootOk (argv.getD 2 ""))
            (.execvp (argv.getD 3 "") (argv.drop 3)) then
          .halt .replaced (joinsOk
            (ns_path_text (atoi (argv.getD 1 "")) "pid")
            (ns_path_text (atoi (argv.getD 1 "")) "uts")
            (ns_path_text (atoi (argv.getD 1 "")) "mnt")
            (ns_path_text (atoi (argv.getD 1 "")) "net")
            fd1 0 fd2 0 fd3 0 fd4 0 ++ rootOk (argv.getD 2 "") ++
              [.sys (.execvp (argv.getD 3 "") (argv.drop 3)) 0])
        else
          .halt (.exited EXIT_FAILURE) (joinsOk
            (ns_path_text (atoi (argv.getD 1 "")) "pid")
            (ns_path_text (atoi (argv.getD 1 "")) "uts")
            (ns_path_text (atoi (argv.getD 1 "")) "mnt")
            (ns_path_text (atoi (argv.getD 1 "")) "net")
            fd1 0 fd2 0 fd3 0 fd4 0 ++ rootOk (argv.getD 2 "") ++
              [.sys (.execvp (argv.getD 3 "") (argv.drop 3)) (-1), .perror "execvp",
                .exit EXIT_FAILURE]) := by
  have hlen : ¬ argv.length < 4 := by omega
  obtain ⟨hlo, hhi⟩ := atoi_range (argv.getD 1 "")
  have hp1 := snprintf_ns_path _ "pid" hlo hhi (by simp [namespaces])
  have hp2 := snprintf_ns_path _ "uts" hlo hhi (by simp [namespaces])
  have hp3 := snprintf_ns_path _ "mnt" hlo hhi (by simp [namespaces])
  have hp4 := snprintf_ns_path _ "net" hlo hhi (by simp [namespaces])
  obtain ⟨fd1, h1⟩ := enter_namespace_ok o hok (atoi (argv.getD 1 "")) "pid" []
  rw [hp1, List.nil_append] at h1
  obtain ⟨fd2, h2⟩ := enter_namespace_ok o hok (atoi (argv.getD 1 "")) "uts"
    (joinOk (ns_path_text (atoi (argv.getD 1 "")) "pid") fd1 0)
  rw [hp2] at h2
  obtain ⟨fd3, h3⟩ := enter_namespace_ok o hok (atoi (argv.getD 1 "")) "mnt"
    (joinOk (ns_path_text (atoi (argv.getD 1 "")) "pid") fd1 0 ++
      joinOk (ns_path_text (atoi (argv.getD 1 "")) "uts") fd2 0)
  rw [hp3] at h3
  obtain ⟨fd4, h4⟩ := enter_namespace_ok o hok (atoi (argv.getD 1 "")) "net"
    (joinOk (ns_path_text (atoi (argv.getD 1 "")) "pid") fd1 0 ++
      joinOk (ns_path_text (atoi (argv.getD 1 "")) "uts") fd2 0 ++
      joinOk (ns_path_text (atoi (argv.getD 1 "")) "mnt") fd3 0)
  rw [hp4] at h4
  have hl : ((List.range 4).forM fun i =>
      enter_namespace o (atoi (argv.getD 1 "")) (namespaces.getD i "")) [] =
      .ret () (joinsOk
            (ns_path_text (atoi (argv.getD 1 "")) "pid")
            (ns_path_text (atoi (argv.getD 1 "")) "uts")
            (ns_path_text (atoi (argv.getD 1 "")) "mnt")
            (ns_path_text (atoi (argv.getD 1 "")) "net")
            fd1 0 fd2 0 fd3 0 fd4 0) := by
    rw [enter_loop_eq]
    simp only [Proc.bind, Proc.pure, h1, h2, h3, h4, joinsOk]
  refine ⟨fd1, fd2, fd3, fd4, ?_⟩
  have hstat : ∀ t a, retval o t (.stat a) = 0 := by
    intro t a
    simp [retval, hok t (.stat a) (by simp)]
  have hchdir : ∀ t a, retval o t (.chdir a) = 0 := by
    intro t a
    simp [retval, hok t (.chdir a) (by simp)]
  have hchroot : ∀ t a, retval o t (.chroot a) = 0 := by
    intro t a
    simp [retval, hok t (.chroot a) (by simp)]
  unfold run main
  simp only [hlen, if_false, bind, Proc.bind, pure, Proc.pure, hl]
  generalize joinsOk _ _ _ _ fd1 0 fd2 0 fd3 0 fd4 0 = T
  generalize argv.getD 2 "" = rootfs
  generalize argv.getD 3 "" = file
  generalize argv.drop 3 = args
  simp [Proc.bind, Proc.pure, syscall, perror, exit, execvp, rootOk, hstat, hchdir, hchroot]
  generalize o.succeeds _ (Call.execvp file args) = b
  cases b <;> simp

/-- C9. No step is skipped or retried on the success path.  In a run with at
least four arguments in which every call other than `execvp` succeeds, the
system calls made are exactly `open`, `setns`, `close` for `pid`, then `uts`,
then `mnt`, then `net`, followed by `stat(rootfs)`, `chdir(rootfs)`,
`chroot(".")`, `chdir("/")` and `execvp`, each once: 17 calls.  Nothing is
written to the error channel before `execvp`; when `execvp` succeeds the run
ends there with the process image replaced and nothing written at all; when
it fails, its diagnostic and `exit` follow. -/
theorem success_path (o : Oracle) (argv : List String) (h : 4 ≤ argv.length)
    (hok : ∀ t c, (∀ f a, c ≠ .execvp f a) → o.succeeds t c = true) :
    ∃ fd1 fd2 fd3 fd4 : Nat,
      syscalls (run o argv).trace =
        [.open (ns_path_text (atoi (argv.getD 1 "")) "pid") O_RDONLY, .setns fd1 0, .close fd1,
          .open (ns_path_text (atoi (argv.getD 1 "")) "uts") O_RDONLY, .setns fd2 0, .close fd2,
          .open (ns_path_text (atoi (argv.getD 1 "")) "mnt") O_RDONLY, .setns fd3 0, .close fd3,
          .open (ns_path_text (atoi (argv.getD 1 "")) "net") O_RDONLY, .setns fd4 0, .close fd4,
          .stat (argv.getD 2 ""), .chdir (argv.getD 2 ""), .chroot ".", .chdir "/",
          .execvp (argv.getD 3 "") (argv.drop 3)] ∧
      (syscalls (run o argv).trace).length = 17 ∧
      (run o argv).trace.take 16 =
        successPrefix (ns_path_text (atoi (argv.getD 1 "")) "pid")
          (ns_path_text (atoi (argv.getD 1 "")) "uts")
          (ns_path_text (atoi (argv.getD 1 "")) "mnt")
          (ns_path_text (atoi (argv.getD 1 "")) "net") (argv.getD 2 "") fd1 fd2 fd3 fd4 ∧
      diagnostics ((run o argv).trace.take 16) = [] ∧
      (o.succeeds ((run o argv).trace.take 16) (.execvp (argv.getD 3 "") (argv.drop 3)) = true →
        run o argv = .halt .replaced ((run o argv).trace.take 16 ++
          [.sys (.execvp (argv.getD 3 "") (argv.drop 3)) 0]) ∧
        diagnostics (run o argv).trace = []) ∧
      (o.succeeds ((run o argv).trace.take 16) (.execvp (argv.getD 3 "") (argv.drop 3)) = false →
        run o argv = .halt (.exited EXIT_FAILURE) ((run o argv).trace.take 16 ++
          [.sys (.execvp (argv.getD 3 "") (argv.drop 3)) (-1), .perror "execvp",
            .exit EXIT_FAILURE])) := by
  obtain ⟨fd1, fd2, fd3, fd4, hr⟩ := success_run o argv h hok
  refine ⟨fd1, fd2, fd3, fd4, ?_⟩
  generalize ns_path_text (atoi (argv.getD 1 "")) "pid" = p1 at *
  generalize ns_path_text (atoi (argv.getD 1 "")) "uts" = p2 at *
  generalize ns_path_text (atoi (argv.getD 1 "")) "mnt" = p3 at *
  generalize ns_path_text (atoi (argv.getD 1 "")) "net" = p4 at *
  generalize argv.getD 2 "" = rootfs at *
  generalize argv.getD 3 "" = file at *
  generalize argv.drop 3 = args at *
  have hpre : joinsOk p1 p2 p3 p4 fd1 0 fd2 0 fd3 0 fd4 0 ++ rootOk rootfs =
      successPrefix p1 p2 p3 p4 rootfs fd1 fd2 fd3 fd4 := rfl
  rw [hpre] at hr
  by_cases hx : o.succeeds (successPrefix p1 p2 p3 p4 rootfs fd1 fd2 fd3 fd4)
      (.execvp file args) = true
  · rw [if_pos hx] at hr
    rw [hr]
    simp [Res.trace, successPrefix, syscalls, diagnostics]
    simp [successPrefix] at hx
    simp [hx]
  · rw [if_neg hx] at hr
    rw [hr]
    simp only [Bool.not_eq_true] at hx
    simp [Res.trace, successPrefix, syscalls, diagnostics]
    simp [successPrefix] at hx
    simp [hx]

/-- C9, at the concrete run in which every call succeeds. -/
theorem success_path_witness :
    4 ≤ exampleArgv.length ∧
    (∀ t c, (∀ f a, c ≠ Call.execvp f a) → okOracle.succeeds t c = true) ∧
    ∃ fd1 fd2 fd3 fd4 : Nat,
      syscalls (run okOracle exampleArgv).trace =
        [.open (ns_path_text (atoi "42") "pid") O_RDONLY, .setns fd1 0, .close fd1,
          .open (ns_path_text (atoi "42") "uts") O_RDONLY, .setns fd2 0, .close fd2,
          .open (ns_path_text (atoi "42") "mnt") O_RDONLY, .setns fd3 0, .close fd3,
          .open (ns_path_text (atoi "42") "net") O_RDONLY, .setns fd4 0, .close fd4,
          .stat "/rootfs", .chdir "/rootfs", .chroot ".", .chdir "/",
          .execvp "/bin/sh" ["/bin/sh", "-c", "ls"]] :=
  ⟨by decide, fun _ _ _ => rfl,
    (success_path okOracle exampleArgv (by decide) (fun _ _ _ => rfl)).elim
      fun fd1 h1 => h1.elim fun fd2 h2 => h2.elim fun fd3 h3 => h3.elim fun fd4 h4 =>
        ⟨fd1, fd2, fd3, fd4, h4.1⟩⟩

/-- For a 32-bit pid and one of the four kinds the formatted path has at most
24 characters. -/
theorem ns_path_text_le (pid : Int) (k : String)
    (hlo : -(2 : Int) ^ 31 ≤ pid) (hhi : pid < 2 ^ 31) (hk : k ∈ namespaces) :
    (ns_path_text pid k).length ≤ 24 := by
  rw [ns_path_text_length]
  have := fmt_d_length pid hlo hhi
  have hl : k.length = 3 := by
    simp only [namespaces, List.mem_cons, List.mem_singleton, List.not_mem_nil, or_false] at hk
    rcases hk with rfl | rfl | rfl | rfl <;> decide
  omega

/-- In a run with at least four arguments, every `open` is of the path of one
of the four kinds for the pid `atoi(argv[1])`, read-only. -/
theorem open_in_trace (o : Oracle) (argv : List String) (h : 4 ≤ argv.length)
    (p : String) (f r : Int) (hm : Event.sys (.open p f) r ∈ (run o argv).trace) :
    (∃ k ∈ namespaces, p = ns_path_text (atoi (argv.getD 1 "")) k) ∧ f = O_RDONLY := by
  obtain ⟨fd1, r1, fd2, r2, fd3, r3, fd4, r4, hr⟩ := main_cases o argv h
  generalize atoi (argv.getD 1 "") = pid at *
  generalize argv.getD 2 "" = rootfs at *
  generalize argv.getD 3 "" = file at *
  generalize argv.drop 3 = args at *
  simp only [runs, List.mem_cons, List.mem_singleton, List.not_mem_nil, or_false] at hr
  rcases hr with hr | hr | hr | hr | hr | hr | hr | hr | hr | hr | hr | hr | hr | hr <;>
    rw [hr] at hm <;>
    simp [Res.trace, joinOk, joinOpenFail, joinSetnsFail, joinsOk, rootOk] at hm <;>
    simp only [namespaces, List.mem_cons, List.mem_singleton, List.not_mem_nil, or_false,
      exists_eq_or_imp, exists_eq_left] <;>
    aesop

/-- C10. For every 32-bit signed pid (zero and negative values included) and
each of the kinds `pid, uts, mnt, net`, the first thing `enter_namespace` does
is `open`, read-only, the path `"/proc/" ++ decimal(pid) ++ "/ns/" ++ kind`:
the text has at most 24 characters, fits the 256-byte buffer and is stored
whole.  In a run of `main` the pid is `atoi(argv[1])`, a 32-bit value, so every
path opened is of this form. -/
theorem ns_path_fits (o : Oracle) (pid : Int) (hlo : -(2 : Int) ^ 31 ≤ pid)
    (hhi : pid < 2 ^ 31) (k : String) (hk : k ∈ ["pid", "uts", "mnt", "net"]) :
    (∀ t : List Event, ∃ r rest, (enter_namespace o pid k t).trace =
      t ++ .sys (.open ("/proc/" ++ fmt_d pid ++ "/ns/" ++ k) O_RDONLY) r :: rest) ∧
    O_RDONLY = 0 ∧
    ("/proc/" ++ fmt_d pid ++ "/ns/" ++ k).length ≤ 24 ∧
    ("/proc/" ++ fmt_d pid ++ "/ns/" ++ k).length < 256 ∧
    snprintf 256 ("/proc/" ++ fmt_d pid ++ "/ns/" ++ k) = "/proc/" ++ fmt_d pid ++ "/ns/" ++ k ∧
    (∀ (argv : List String), 4 ≤ argv.length → ∀ p f r,
      Event.sys (.open p f) r ∈ (run o argv).trace →
      -(2 : Int) ^ 31 ≤ atoi (argv.getD 1 "") ∧ atoi (argv.getD 1 "") < 2 ^ 31 ∧
      (∃ k2 ∈ ["pid", "uts", "mnt", "net"],
        p = "/proc/" ++ fmt_d (atoi (argv.getD 1 "")) ++ "/ns/" ++ k2) ∧
      f = O_RDONLY ∧ p.length ≤ 24) := by
  have hk2 : k ∈ namespaces := hk
  have hlen := ns_path_text_le pid k hlo hhi hk2
  refine ⟨?_, rfl, hlen, by unfold ns_path_text at hlen; omega,
    snprintf_ns_path pid k hlo hhi hk2, ?_⟩
  · intro t
    obtain ⟨fd, r, hc | hc | hc⟩ := enter_namespace_cases32 o pid k hlo hhi hk2 t
    · exact ⟨fd, _, by rw [hc]; rfl⟩
    · exact ⟨-1, _, by rw [hc]; rfl⟩
    · exact ⟨fd, _, by rw [hc]; rfl⟩
  · intro argv h p f r hm
    obtain ⟨hlo2, hhi2⟩ := atoi_range (argv.getD 1 "")
    obtain ⟨⟨k2, hk2m, hp⟩, hf⟩ := open_in_trace o argv h p f r hm
    refine ⟨hlo2, hhi2, ⟨k2, hk2m, hp⟩, hf, ?_⟩
    rw [hp]
    exact ns_path_text_le _ k2 hlo2 hhi2 hk2m

set_option maxRecDepth 100000 in
/-- C10, at the most negative pid, where the path has exactly 24 characters. -/
theorem ns_path_fits_witness :
    -(2 : Int) ^ 31 ≤ -2147483648 ∧ (-2147483648 : Int) < 2 ^ 31 ∧
    "net" ∈ ["pid", "uts", "mnt", "net"] ∧
    "/proc/" ++ fmt_d (-2147483648) ++ "/ns/" ++ "net" = "/proc/-2147483648/ns/net" ∧
    ("/proc/" ++ fmt_d (-2147483648) ++ "/ns/" ++ "net").length = 24 ∧
    snprintf 256 ("/proc/" ++ fmt_d (-2147483648) ++ "/ns/" ++ "net") =
      "/proc/" ++ fmt_d (-2147483648) ++ "/ns/" ++ "net" :=
  ⟨by decide, by decide, by decide, by decide, by decide,
    (ns_path_fits okOracle (-2147483648) (by decide) (by decide) "net" (by decide)).2.2.2.2.1⟩

end Helper
